import Mathlib

/-!
Verification development for the `botasaurus-service` link-resolution service
(`src/botasaurus-service/main.py`).

The Python program is shallowly embedded:

* JSON values that flow through the program (request bodies, cache-file
  contents, remote-cache responses) are modelled by the inductive `PyVal`;
  numeric JSON values are modelled as integers (no float appears in any flow
  relevant to the claims).  File contents are modelled at the parsed-JSON
  level: a file either holds a JSON document (`FileData.json v`, on which
  `json.load` succeeds returning `v`) or undecodable bytes (`FileData.raw`,
  on which `json.load` raises); `json.dump` followed by `json.load` returns
  the dumped value, so this is faithful for everything the service reads
  and writes.
* `urllib.parse.urlparse` is embedded by `pyUrlparse`, following CPython's
  `urlsplit`/`_splitparams` (tab/CR/LF stripping, scheme detection, netloc
  up to the first of `/?#` with the mismatched-bracket `ValueError`,
  fragment split, query split, params split).  The bracketed-host
  validation added in very recent CPython versions is not modelled; no
  claim depends on it.
* `hashlib.md5(...).hexdigest()` is embedded by a full executable MD5
  (`md5hex`) over the UTF-8 bytes of the input.
* `time.gmtime` / `time.strftime('%Y-%m-%dT%H:%M:%SZ', ...)` are embedded
  by `gmtime`/`fmtTime` over a POSIX-seconds clock carried in the state.
* The external collaborators (remote cache HTTP service, browser driver)
  are oracles supplied as arguments: `RemoteOracle` holds the responses the
  remote service would produce, `BrowserOracle` holds the outcomes of each
  browser interaction (navigation, page-ready wait, challenge widget
  detection/location/click, per-iteration submit-button state, final-link
  container contents).  Exceptions raised by library calls are the
  `.error` branches.
* The Flask handler `/resolve` is `resolve`; an uncaught Python exception
  escaping the handler is modelled as `Except.error`.  `HandlerOut.calls`
  records the outbound external calls (remote get, remote post, browser
  invocation) the handler performed, in order.
* `DEBUG` defaults to false (env default), under which `take_screenshot`
  returns without writing; the definition still carries the debug branch.
-/

namespace Ddlarr

/-! ## Python JSON values -/

/-- A Python value as it appears in the JSON-carrying flows of the service. -/
inductive PyVal where
  | none : PyVal
  | bool : Bool → PyVal
  | int : Int → PyVal
  | str : String → PyVal
  | list : List PyVal → PyVal
  | dict : List (String × PyVal) → PyVal

/-- Python truthiness of a `PyVal`. -/
def truthy : PyVal → Bool
  | .none => false
  | .bool b => b
  | .int n => n != 0
  | .str s => s ≠ ""
  | .list xs => !xs.isEmpty
  | .dict kvs => !kvs.isEmpty

/-- First binding of a key in a Python dict (insertion order, like CPython). -/
def dlookup : List (String × PyVal) → String → Option PyVal
  | [], _ => Option.none
  | (k, v) :: rest, q => if k = q then Option.some v else dlookup rest q

/-- Python `d.get(key, default)` on a dict. -/
def dgetD (kvs : List (String × PyVal)) (q : String) (dfl : PyVal) : PyVal :=
  match dlookup kvs q with
  | Option.some v => v
  | Option.none => dfl

/-- Python subscription `v[key]` with a string key: `KeyError` on a dict
without the key, `TypeError` on non-dicts. -/
def pyGetItem (v : PyVal) (q : String) : Except String PyVal :=
  match v with
  | .dict kvs =>
    match dlookup kvs q with
    | Option.some x => .ok x
    | Option.none => .error ("KeyError: " ++ q)
  | .str _ => .error "TypeError: string indices must be integers"
  | _ => .error "TypeError: value is not subscriptable"

/-- Python `==` between a value and a string literal. -/
def pyEqStr (v : PyVal) (s : String) : Bool :=
  match v with
  | .str t => t = s
  | _ => false

/-- Whether the second list starts with the first. -/
def leadsWith : List Char → List Char → Bool
  | [], _ => true
  | _ :: _, [] => false
  | p :: ps, c :: cs => p == c && leadsWith ps cs

/-- Python substring test `pat in s` on character lists. -/
def strIn (pat : List Char) : List Char → Bool
  | [] => leadsWith pat []
  | c :: cs => leadsWith pat (c :: cs) || strIn pat cs

/-- Python `key in v`: key membership for dicts, element equality for lists,
substring test for strings, `TypeError` otherwise. -/
def pyContainsStr (v : PyVal) (q : String) : Except String Bool :=
  match v with
  | .dict kvs => .ok ((dlookup kvs q).isSome)
  | .list xs => .ok (xs.any (pyEqStr · q))
  | .str s => .ok (strIn q.data s.data)
  | _ => .error "TypeError: argument is not iterable"

/-! ## URL parsing (`urllib.parse.urlparse`) -/

/-- Characters CPython's `urlsplit` removes from a URL before parsing. -/
def unsafeChar (c : Char) : Bool := c == '\t' || c == '\r' || c == '\n'

/-- Characters allowed after the first character of a URL scheme. -/
def schemeChar (c : Char) : Bool :=
  c.isAlpha || c.isDigit || c == '+' || c == '-' || c == '.'

/-- Characters that may appear inside a netloc (anything up to `/`, `?`, `#`). -/
def netlocChar (c : Char) : Bool := c != '/' && c != '?' && c != '#'

/-- Scheme detection of `urlsplit`: if everything before the first `:` is a
letter followed by scheme characters, that prefix (lowercased) is the scheme
and parsing continues after the colon; otherwise there is no scheme. -/
def splitScheme (l : List Char) : List Char × List Char :=
  let pre := l.takeWhile (· != ':')
  let post := l.dropWhile (· != ':')
  if post.isEmpty then ([], l)
  else
    match pre with
    | [] => ([], l)
    | c :: cs =>
      if c.isAlpha && cs.all schemeChar then ((c :: cs).map Char.toLower, post.tail)
      else ([], l)

/-- Netloc split of `urlsplit`: after a leading `//`, the netloc extends to
the first `/`, `?` or `#`; mismatched square brackets raise `ValueError`. -/
def splitNetloc (l : List Char) : Except String (List Char × List Char) :=
  if leadsWith ['/', '/'] l then
    let rest := l.drop 2
    let nl := rest.takeWhile netlocChar
    if (nl.contains '[' && !nl.contains ']') || (nl.contains ']' && !nl.contains '[') then
      .error "ValueError: Invalid IPv6 URL"
    else .ok (nl, rest.dropWhile netlocChar)
  else .ok ([], l)

/-- Fragment split: everything after the first `#` (if any). -/
def splitFragment (l : List Char) : List Char × List Char :=
  (l.takeWhile (· != '#'),
   match l.dropWhile (· != '#') with
   | _ :: r => r
   | [] => [])

/-- Query split: everything after the first `?` (if any). -/
def splitQuery (l : List Char) : List Char × List Char :=
  (l.takeWhile (· != '?'),
   match l.dropWhile (· != '?') with
   | _ :: r => r
   | [] => [])

/-- Params split of `urlparse` (`_splitparams`): a `;` in the last path
segment separates the params. -/
def splitParams (p : List Char) : List Char × List Char :=
  if p.contains ';' then
    if p.contains '/' then
      let revp := p.reverse
      let lastSeg := (revp.takeWhile (· != '/')).reverse
      let before := (revp.dropWhile (· != '/')).reverse
      if lastSeg.contains ';' then
        (before ++ lastSeg.takeWhile (· != ';'),
         match lastSeg.dropWhile (· != ';') with
         | _ :: r => r
         | [] => [])
      else (p, [])
    else
      (p.takeWhile (· != ';'),
       match p.dropWhile (· != ';') with
       | _ :: r => r
       | [] => [])
  else (p, [])

/-- Result of `urlparse`, with the six components of a `ParseResult`. -/
structure UrlParts where
  scheme : List Char
  netloc : List Char
  path : List Char
  params : List Char
  query : List Char
  fragment : List Char

/-- `urllib.parse.urlparse` on a string: `Except.error` is a raised
`ValueError`. -/
def pyUrlparse (url : String) : Except String UrlParts :=
  let l := url.data.filter (fun c => !unsafeChar c)
  let sch := splitScheme l
  match splitNetloc sch.2 with
  | .error e => .error e
  | .ok (netloc, r2) =>
    let fr := splitFragment r2
    let qu := splitQuery fr.1
    let pp := splitParams qu.1
    .ok ⟨sch.1, netloc, pp.1, pp.2, qu.2, fr.2⟩

/-! ## MD5 (`hashlib.md5(...).hexdigest()`) -/

/-- Bitwise combination of the low `fuel` bits of two naturals. -/
def bitop (f : Bool → Bool → Bool) : Nat → Nat → Nat → Nat
  | 0, _, _ => 0
  | fuel + 1, a, b =>
    (cond (f (a % 2 == 1) (b % 2 == 1)) 1 0) + 2 * bitop f fuel (a / 2) (b / 2)

def and32 (a b : Nat) : Nat := bitop (fun x y => x && y) 32 a b

def or32 (a b : Nat) : Nat := bitop (fun x y => x || y) 32 a b

def xor32 (a b : Nat) : Nat := bitop (fun x y => x != y) 32 a b

/-- 32-bit complement (arguments are kept below `2^32`). -/
def not32 (a : Nat) : Nat := 4294967295 - a % 4294967296

/-- 32-bit left rotation. -/
def rotl32 (x n : Nat) : Nat := (x * 2 ^ n + x / 2 ^ (32 - n)) % 4294967296

/-- The 64 MD5 sine-derived constants. -/
def md5K : List Nat :=
  [0xd76aa478, 0xe8c7b756, 0x242070db, 0xc1bdceee,
   0xf57c0faf, 0x4787c62a, 0xa8304613, 0xfd469501,
   0x698098d8, 0x8b44f7af, 0xffff5bb1, 0x895cd7be,
   0x6b901122, 0xfd987193, 0xa679438e, 0x49b40821,
   0xf61e2562, 0xc040b340, 0x265e5a51, 0xe9b6c7aa,
   0xd62f105d, 0x02441453, 0xd8a1e681, 0xe7d3fbc8,
   0x21e1cde6, 0xc33707d6, 0xf4d50d87, 0x455a14ed,
   0xa9e3e905, 0xfcefa3f8, 0x676f02d9, 0x8d2a4c8a,
   0xfffa3942, 0x8771f681, 0x6d9d6122, 0xfde5380c,
   0xa4beea44, 0x4bdecfa9, 0xf6bb4b60, 0xbebfbc70,
   0x289b7ec6, 0xeaa127fa, 0xd4ef3085, 0x04881d05,
   0xd9d4d039, 0xe6db99e5, 0x1fa27cf8, 0xc4ac5665,
   0xf4292244, 0x432aff97, 0xab9423a7, 0xfc93a039,
   0x655b59c3, 0x8f0ccc92, 0xffeff47d, 0x85845dd1,
   0x6fa87e4f, 0xfe2ce6e0, 0xa3014314, 0x4e0811a1,
   0xf7537e82, 0xbd3af235, 0x2ad7d2bb, 0xeb86d391]

/-- The 64 per-round MD5 shift amounts. -/
def md5S : List Nat :=
  [7, 12, 17, 22, 7, 12, 17, 22, 7, 12, 17, 22, 7, 12, 17, 22,
   5, 9, 14, 20, 5, 9, 14, 20, 5, 9, 14, 20, 5, 9, 14, 20,
   4, 11, 16, 23, 4, 11, 16, 23, 4, 11, 16, 23, 4, 11, 16, 23,
   6, 10, 15, 21, 6, 10, 15, 21, 6, 10, 15, 21, 6, 10, 15, 21]

/-- The MD5 round function for round `i`. -/
def md5F (i b c d : Nat) : Nat :=
  if i < 16 then or32 (and32 b c) (and32 (not32 b) d)
  else if i < 32 then or32 (and32 d b) (and32 (not32 d) c)
  else if i < 48 then xor32 b (xor32 c d)
  else xor32 c (or32 b (not32 d))

/-- The MD5 message-word index for round `i`. -/
def md5g (i : Nat) : Nat :=
  if i < 16 then i
  else if i < 32 then (5 * i + 1) % 16
  else if i < 48 then (3 * i + 5) % 16
  else (7 * i) % 16

/-- One MD5 round applied to the state `(a, b, c, d)`. -/
def md5Round (M : List Nat) (st : Nat × Nat × Nat × Nat) (i : Nat) :
    Nat × Nat × Nat × Nat :=
  let a := st.1
  let b := st.2.1
  let c := st.2.2.1
  let d := st.2.2.2
  let f := (md5F i b c d + a + md5K.getD i 0 + M.getD (md5g i) 0) % 4294967296
  (d, (b + rotl32 f (md5S.getD i 0)) % 4294967296, b, c)

/-- Little-endian 32-bit words of a byte list. -/
def toWords : List Nat → List Nat
  | b0 :: b1 :: b2 :: b3 :: rest =>
    (b0 + 256 * b1 + 65536 * b2 + 16777216 * b3) :: toWords rest
  | _ => []

/-- One 64-byte MD5 chunk folded into the running state. -/
def md5Chunk (st : Nat × Nat × Nat × Nat) (chunk : List Nat) :
    Nat × Nat × Nat × Nat :=
  let M := toWords chunk
  let r := (List.range 64).foldl (md5Round M) st
  ((st.1 + r.1) % 4294967296,
   (st.2.1 + r.2.1) % 4294967296,
   (st.2.2.1 + r.2.2.1) % 4294967296,
   (st.2.2.2 + r.2.2.2) % 4294967296)

/-- Split a byte list into 64-byte chunks (fuel-driven for structural
recursion; the fuel is always at least the list length). -/
def splitChunks : Nat → List Nat → List (List Nat)
  | 0, _ => []
  | _ + 1, [] => []
  | fuel + 1, l => l.take 64 :: splitChunks fuel (l.drop 64)

/-- Little-endian bytes of a 32-bit word. -/
def wordLE (w : Nat) : List Nat :=
  [w % 256, w / 256 % 256, w / 65536 % 256, w / 16777216 % 256]

/-- Little-endian 8-byte encoding of the message bit length. -/
def lenLE (n : Nat) : List Nat :=
  [n % 256, n / 2 ^ 8 % 256, n / 2 ^ 16 % 256, n / 2 ^ 24 % 256,
   n / 2 ^ 32 % 256, n / 2 ^ 40 % 256, n / 2 ^ 48 % 256, n / 2 ^ 56 % 256]

/-- MD5 digest (16 bytes) of a byte list. -/
def md5bytes (msg : List Nat) : List Nat :=
  let padded :=
    msg ++ 0x80 :: List.replicate ((119 - msg.length % 64) % 64) 0
      ++ lenLE (msg.length * 8)
  let r := (splitChunks padded.length padded).foldl md5Chunk
    (0x67452301, 0xefcdab89, 0x98badcfe, 0x10325476)
  wordLE r.1 ++ wordLE r.2.1 ++ wordLE r.2.2.1 ++ wordLE r.2.2.2

/-- UTF-8 encoding of one character (Python `str.encode()`). -/
def utf8Char (c : Char) : List Nat :=
  let n := c.toNat
  if n < 0x80 then [n]
  else if n < 0x800 then [0xc0 + n / 64, 0x80 + n % 64]
  else if n < 0x10000 then [0xe0 + n / 4096, 0x80 + n / 64 % 64, 0x80 + n % 64]
  else [0xf0 + n / 262144, 0x80 + n / 4096 % 64, 0x80 + n / 64 % 64, 0x80 + n % 64]

/-- UTF-8 bytes of a string. -/
def utf8Bytes (s : String) : List Nat :=
  s.data.foldr (fun c acc => utf8Char c ++ acc) []

/-- One lowercase hex digit. -/
def hexDigit (n : Nat) : Char :=
  if n < 10 then Char.ofNat (48 + n) else Char.ofNat (87 + n)

/-- Two-digit lowercase hex of a byte. -/
def byteHex (b : Nat) : String := String.mk [hexDigit (b / 16 % 16), hexDigit (b % 16)]

/-- Lowercase hex string of a byte list. -/
def bytesHex : List Nat → String
  | [] => ""
  | b :: bs => byteHex b ++ bytesHex bs

/-- `hashlib.md5(s.encode()).hexdigest()`. -/
def md5hex (s : String) : String := bytesHex (md5bytes (utf8Bytes s))

/-! ## Service constants (`main.py` top level, env defaults) -/

def CACHE_DIR : String := "/app/cache"

def CACHE_SUBDIR : String := CACHE_DIR ++ "/links"

def DLPROTECT_DOMAINS : List String :=
  ["dl-protect.link", "dl-protect.net", "dl-protect.org"]

/-- The `DEBUG` environment toggle; `false` unless the env sets it. -/
def DEBUG : Bool := false

/-! ## Cache key derivation (`get_url_hash`, `get_cache_filepath`) -/

/-- The string whose MD5 is the cache key: `scheme://netloc+path` of the
parsed URL, or the raw URL when `urlparse` raised. -/
def cleanUrl (url : String) : String :=
  match pyUrlparse url with
  | .ok p => String.mk (p.scheme ++ [':', '/', '/'] ++ p.netloc ++ p.path)
  | .error _ => url

/-- `get_url_hash`: MD5 hex of the cleaned URL. -/
def get_url_hash (url : String) : String := md5hex (cleanUrl url)

/-- `get_cache_filepath`: cache file path for a URL. -/
def get_cache_filepath (url : String) : String :=
  CACHE_SUBDIR ++ "/" ++ get_url_hash url ++ ".json"

/-- `is_dlprotect_link`: any protector domain occurs in the URL's netloc;
a parse error yields `false`. -/
def is_dlprotect_link (url : String) : Bool :=
  match pyUrlparse url with
  | .ok p => DLPROTECT_DOMAINS.any (fun d => strIn d.data p.netloc)
  | .error _ => false

/-! ## UTC clock (`time.gmtime` / `time.strftime('%Y-%m-%dT%H:%M:%SZ')`) -/

def isLeap (y : Nat) : Bool := (y % 4 == 0 && y % 100 != 0) || y % 400 == 0

def yearLen (y : Nat) : Nat := if isLeap y then 366 else 365

/-- Month lengths of a (leap or common) year. -/
def monthLengths (leap : Bool) : List Nat :=
  [31, if leap then 29 else 28, 31, 30, 31, 30, 31, 31, 30, 31, 30, 31]

/-- Resolve a day count (days since Jan 1 of year `y`) to `(year, dayOfYear)`.
Fuel-driven structural recursion; any fuel at least `days` suffices. -/
def findYear : Nat → Nat → Nat → Nat × Nat
  | 0, y, days => (y, days)
  | fuel + 1, y, days =>
    if yearLen y ≤ days then findYear fuel (y + 1) (days - yearLen y)
    else (y, days)

/-- Resolve a day-of-year against a month-length list to
`(zero-based month, zero-based day)`. -/
def findMonth : Nat → List Nat → Nat × Nat
  | d, [] => (0, d)
  | d, len :: rest =>
    if d < len then (0, d)
    else
      let p := findMonth (d - len) rest
      (p.1 + 1, p.2)

/-- Broken-down UTC time. -/
structure Tm where
  year : Nat
  month : Nat
  day : Nat
  hour : Nat
  minute : Nat
  second : Nat

/-- `time.gmtime` on nonnegative POSIX seconds. -/
def gmtime (t : Nat) : Tm :=
  let days := t / 86400
  let secs := t % 86400
  let yd := findYear (days + 1) 1970 days
  let md := findMonth yd.2 (monthLengths (isLeap yd.1))
  ⟨yd.1, md.1 + 1, md.2 + 1, secs / 3600, secs % 3600 / 60, secs % 60⟩

/-- Zero-padded two-digit decimal (`%m`, `%d`, `%H`, `%M`, `%S`). -/
def twoDigits (n : Nat) : String := (if n < 10 then "0" else "") ++ toString n

/-- Zero-padded (at least) four-digit decimal (`%Y`). -/
def fourDigits (n : Nat) : String :=
  (if n < 10 then "000" else if n < 100 then "00" else if n < 1000 then "0" else "")
    ++ toString n

/-- The timestamp format used by `save_to_cache`. -/
def tsFormat (y m d h mi s : Nat) : String :=
  fourDigits y ++ "-" ++ twoDigits m ++ "-" ++ twoDigits d ++ "T"
    ++ twoDigits h ++ ":" ++ twoDigits mi ++ ":" ++ twoDigits s ++ "Z"

/-- `time.strftime('%Y-%m-%dT%H:%M:%SZ', time.gmtime(t))`. -/
def fmtTime (t : Nat) : String :=
  let tm := gmtime t
  tsFormat tm.year tm.month tm.day tm.hour tm.minute tm.second

/-! ## Filesystem and process state -/

/-- Contents of a file as far as the service can observe them: a JSON
document (`json.load` succeeds) or undecodable bytes (`json.load` raises;
also used for the `.png` screenshots). -/
inductive FileData where
  | json : PyVal → FileData
  | raw : FileData

/-- A flat filesystem: existing directories and files with contents. -/
structure FS where
  dirs : List String
  files : List (String × FileData)

/-- Read a file (first entry with the path). -/
def lookupFile : List (String × FileData) → String → Option FileData
  | [], _ => Option.none
  | (p, d) :: rest, q => if p = q then Option.some d else lookupFile rest q

/-- Write a file, replacing an existing entry for the path. -/
def setFile : List (String × FileData) → String → FileData → List (String × FileData)
  | [], q, v => [(q, v)]
  | (p, d) :: rest, q, v =>
    if p = q then (q, v) :: rest else (p, d) :: setFile rest q v

/-- Remove every entry for a path (`os.remove`). -/
def removeFile (files : List (String × FileData)) (q : String) :
    List (String × FileData) :=
  files.filter (fun e => e.1 ≠ q)

/-- Process state: filesystem, POSIX-seconds clock, screenshot counter. -/
structure Sys where
  fs : FS
  now : Nat
  screenshot_counter : Nat

/-- Three-digit zero-padded counter used in screenshot filenames. -/
def pad3 (n : Nat) : String :=
  (if n < 10 then "00" else if n < 100 then "0" else "") ++ toString n

/-- `take_screenshot`: in debug mode, saves a sequentially named `.png`
into the cache root; otherwise returns immediately. -/
def take_screenshot (s : Sys) (name : String) : Sys :=
  if DEBUG then
    let n := s.screenshot_counter + 1
    { s with
      screenshot_counter := n,
      fs := { s.fs with
        files := setFile s.fs.files
          (CACHE_DIR ++ "/" ++ pad3 n ++ "_" ++ name ++ ".png") .raw } }
  else s

/-! ## Local cache store -/

/-- `load_from_cache`: read and JSON-decode the cache file for a URL;
any failure (missing file, undecodable contents) degrades to `none`. -/
def load_from_cache (sys : Sys) (url : String) : Option PyVal :=
  match lookupFile sys.fs.files (get_cache_filepath url) with
  | Option.some (.json v) => Option.some v
  | Option.some .raw => Option.none
  | Option.none => Option.none

/-- The record `save_to_cache` writes. -/
def cacheRecord (url : String) (resolved : PyVal) (now : Nat) : PyVal :=
  .dict [("original_url", .str url), ("resolved_url", resolved),
         ("resolved_at", .str (fmtTime now))]

/-- `save_to_cache`: create the links directory and write the record. -/
def save_to_cache (sys : Sys) (url : String) (resolved : PyVal) : Sys :=
  { sys with
    fs := { dirs := CACHE_DIR :: CACHE_SUBDIR :: sys.fs.dirs,
            files := setFile sys.fs.files (get_cache_filepath url)
              (.json (cacheRecord url resolved sys.now)) } }

/-- Whether a path is matched by `glob.glob(os.path.join(CACHE_SUBDIR,
"*.json"))`: directly inside the links directory, not hidden, ending in
`.json`. -/
def globLinksMatch (path : String) : Bool :=
  let pre := (CACHE_SUBDIR ++ "/").data
  leadsWith pre path.data &&
    (let name := path.data.drop pre.length
     name.all (· != '/') &&
       (match name with
        | [] => false
        | c :: _ => c != '.') &&
       leadsWith (".json".data.reverse) name.reverse)

/-- `count_cache_entries`: number of `*.json` files in the links directory. -/
def count_cache_entries (sys : Sys) : Nat :=
  if CACHE_SUBDIR ∈ sys.fs.dirs then
    ((sys.fs.files.map Prod.fst).filter globLinksMatch).length
  else 0

/-- The removal loop of `clear_cache`: remove each globbed path in turn;
a raising `os.remove` (`removeOk p = false`) aborts the loop (the exception
is caught by `clear_cache`'s handler). -/
def clearLoop (removeOk : String → Bool) :
    List (String × FileData) → List String → List (String × FileData)
  | files, [] => files
  | files, p :: ps =>
    if removeOk p then clearLoop removeOk (removeFile files p) ps else files

/-- `clear_cache`: remove every `*.json` directly under the links directory;
a missing directory or an I/O failure is swallowed. -/
def clear_cache (removeOk : String → Bool) (sys : Sys) : Sys :=
  if CACHE_SUBDIR ∈ sys.fs.dirs then
    { sys with
      fs := { sys.fs with
        files := clearLoop removeOk sys.fs.files
          ((sys.fs.files.map Prod.fst).filter globLinksMatch) } }
  else sys

/-- `POST /cache/clear`: clear and answer `ok` unconditionally. -/
def clear_cache_endpoint (removeOk : String → Bool) (sys : Sys) :
    (Nat × PyVal) × Sys :=
  ((200, .dict [("status", .str "ok"), ("message", .str "Cache cleared")]),
   clear_cache removeOk sys)

/-! ## Remote cache client -/

/-- Outcome of one HTTP exchange with the remote cache: a transport or
JSON-decoding failure, or a decoded JSON body. -/
inductive RemoteResp where
  | netError : String → RemoteResp
  | json : PyVal → RemoteResp

/-- The remote cache service's behaviour for this request, as an oracle. -/
structure RemoteOracle where
  getResp : RemoteResp
  postResp : RemoteResp

/-- `load_from_remote_cache`: a decoded body with truthy `ok` and truthy
`value` is a hit and back-fills the local cache; anything else (including a
non-dict body, whose `.get` raises inside the `try`) is a miss. -/
def load_from_remote_cache (ro : RemoteOracle) (sys : Sys) (url : String) :
    Option PyVal × Sys :=
  match ro.getResp with
  | .netError _ => (Option.none, sys)
  | .json v =>
    match v with
    | .dict kvs =>
      if truthy (dgetD kvs "ok" PyVal.none) && truthy (dgetD kvs "value" PyVal.none) then
        (Option.some (dgetD kvs "value" PyVal.none),
         save_to_cache sys url (dgetD kvs "value" PyVal.none))
      else (Option.none, sys)
    | _ => (Option.none, sys)

/-- `save_to_remote_cache`: `True` only for a decoded body with truthy `ok`
and truthy `stored`; all failures degrade to `False`. -/
def save_to_remote_cache (ro : RemoteOracle) : Bool :=
  match ro.postResp with
  | .netError _ => false
  | .json v =>
    match v with
    | .dict kvs => truthy (dgetD kvs "ok" PyVal.none) && truthy (dgetD kvs "stored" PyVal.none)
    | _ => false

/-! ## Challenge resolver (`resolve_dlprotect`) -/

/-- Oracle for the Turnstile phase: the detection `run_js`, the two
element-location calls, and the checkbox click. -/
structure TOracle where
  stateJs : Except String PyVal
  iframeLoc : Except String Unit
  checkboxLoc : Except String Unit
  clickRes : Except String Unit

/-- The Turnstile phase: returns the number of checkbox click attempts
performed (an attempt is reaching `checkbox.click()`; its own failure is
also caught) and the state.  Every failure path falls through. -/
def solve_turnstile (t : TOracle) (sys : Sys) : Nat × Sys :=
  let s1 := take_screenshot sys "03_before_turnstile_check"
  match t.stateJs with
  | .error _ => (0, take_screenshot s1 "04_turnstile_error")
  | .ok st =>
    match st with
    | .dict kvs =>
      if truthy (dgetD kvs "containerExists" (.bool false)) then
        let s2 := take_screenshot s1 "04_before_turnstile_click"
        match t.iframeLoc with
        | .error _ => (0, take_screenshot s2 "04_after_turnstile_click")
        | .ok _ =>
          match t.checkboxLoc with
          | .error _ => (0, take_screenshot s2 "04_after_turnstile_click")
          | .ok _ => (1, take_screenshot s2 "04_after_turnstile_click")
      else (0, s1)
    | _ => (0, take_screenshot s1 "04_turnstile_error")

/-- The truthiness-and-enabled test of the button-wait loop:
`btn_info and btn_info.get('exists') and not btn_info.get('disabled')`. -/
def btnCheck (info : PyVal) : Except String Bool :=
  if truthy info then
    match info with
    | .dict kvs =>
      if truthy (dgetD kvs "exists" PyVal.none) then
        .ok (!truthy (dgetD kvs "disabled" PyVal.none))
      else .ok false
    | _ => .error "AttributeError: no attribute get"
  else .ok false

/-- One iteration of the button-wait loop: run the DOM inspection, then the
enabled test; a raise propagates to the surrounding handler. -/
def pollStep (btn : Nat → Except String PyVal) (i : Nat) : Except String Bool :=
  match btn i with
  | .error e => .error e
  | .ok info => btnCheck info

/-- The `while waited < max_wait` loop of the AwaitActionEnabled phase,
with `fuel = max_wait - waited`; returns the final value of `waited`. -/
def button_loop (btn : Nat → Except String PyVal) : Nat → Nat → Except String Nat
  | 0, waited => .ok waited
  | fuel + 1, waited =>
    match pollStep btn waited with
    | .error e => .error e
    | .ok true => .ok waited
    | .ok false => button_loop btn fuel (waited + 1)

/-- The acceptance test of the AwaitFinalLink phase:
`link and not is_dlprotect_link(link)`. -/
def linkOk (l : String) : Bool := l ≠ "" && !is_dlprotect_link l

/-- The `while waited < max_wait` loop of the AwaitFinalLink phase; a raise
inside the loop is caught below it and yields no result, like a timeout. -/
def link_loop (linkAt : Nat → Except String (Option String)) :
    Nat → Nat → Option String
  | 0, _ => Option.none
  | fuel + 1, waited =>
    match linkAt waited with
    | .error _ => Option.none
    | .ok (Option.some l) =>
      if linkOk l then Option.some l else link_loop linkAt fuel (waited + 1)
    | .ok Option.none => link_loop linkAt fuel (waited + 1)

/-- Oracle for one browser-scripted resolution: navigation, page-ready
wait, Turnstile phase, per-iteration submit-button states, the submit
click, and per-iteration final-link container contents. -/
structure BrowserOracle where
  nav : Except String Unit
  pageReady : Except String Unit
  turnstile : TOracle
  btnInfo : Nat → Except String PyVal
  subClick : Except String Unit
  linkAt : Nat → Except String (Option String)

/-- `resolve_dlprotect`: the browser-scripted state machine.  `.error` is
an exception that propagates to the caller (only navigation is outside
every `try`); `.ok Option.none` is the FAILED outcome; `.ok (some l)` is a
resolved link. -/
def resolve_dlprotect (bo : BrowserOracle) (sys : Sys) :
    Except String (Option String) × Sys :=
  match bo.nav with
  | .error e => (.error e, sys)
  | .ok _ =>
    let s1 := take_screenshot sys "01_after_navigation"
    match bo.pageReady with
    | .error _ => (.ok Option.none, take_screenshot s1 "02_error_loading")
    | .ok _ =>
      let s2 := take_screenshot s1 "02_page_loaded"
      let ts := solve_turnstile bo.turnstile s2
      let s3 := take_screenshot ts.2 "05_after_turnstile"
      match button_loop bo.btnInfo 30 0 with
      | .error _ => (.ok Option.none, take_screenshot s3 "07_button_error")
      | .ok waited =>
        if waited ≥ 30 then (.ok Option.none, s3)
        else
          let s4 := take_screenshot s3 "06_button_enabled"
          match bo.subClick with
          | .error _ => (.ok Option.none, take_screenshot s4 "07_button_error")
          | .ok _ =>
            let s5 := take_screenshot (take_screenshot s4 "07_after_button_click")
              "08_waiting_for_link"
            match link_loop bo.linkAt 15 0 with
            | Option.some l => (.ok (Option.some l), take_screenshot s5 "09_link_found")
            | Option.none => (.ok Option.none, take_screenshot s5 "09_timeout_no_link")

/-! ## The `/resolve` orchestrator -/

/-- One outbound external call performed by the handler, in order. -/
inductive ExtCall where
  | remoteGet : ExtCall
  | remotePost : String → PyVal → ExtCall
  | browse : ExtCall

/-- Result of one `/resolve` request: the HTTP response (or an uncaught
exception escaping the handler), the new state, and the external calls
made. -/
structure HandlerOut where
  result : Except String (Nat × PyVal)
  sys : Sys
  calls : List ExtCall

/-- The degraded-failure response body. -/
def errorBody (urlV : PyVal) (msg : String) : PyVal :=
  .dict [("resolved_url", urlV), ("cached", .bool false), ("error", .str msg)]

/-- The 400 response body for a missing `url`. -/
def missingUrlBody : PyVal := .dict [("error", .str "Missing url parameter")]

/-- Tier 3 of the orchestrator: the `try` block around
`resolve_dlprotect` and the two cache writes.  A thrown exception or a
no-result outcome degrades to the failure body; a result equal to the
input (or falsy) is not persisted; otherwise both caches are written (for
a non-string `url`, `get_cache_filepath` and `b64_encode` raise inside
`save_to_cache`'s / `save_to_remote_cache`'s own `try`, so neither write
happens). -/
def tier3 (bo : BrowserOracle) (urlV : PyVal) (sys1 : Sys) (calls : List ExtCall) :
    HandlerOut :=
  match resolve_dlprotect bo sys1 with
  | (.error e, sys2) => ⟨.ok (200, errorBody urlV e), sys2, calls⟩
  | (.ok Option.none, sys2) =>
    ⟨.ok (200, errorBody urlV "Could not resolve link"), sys2, calls⟩
  | (.ok (Option.some r), sys2) =>
    if r ≠ "" && !pyEqStr urlV r then
      ⟨.ok (200, .dict [("resolved_url", .str r), ("cached", .bool false)]),
       (match urlV with
        | .str u => save_to_cache sys2 u (.str r)
        | _ => sys2),
       calls ++ (match urlV with
        | .str u => [ExtCall.remotePost u (.str r)]
        | _ => [])⟩
    else ⟨.ok (200, errorBody urlV "Could not resolve link"), sys2, calls⟩

/-- Tiers 2 and 3 of the orchestrator (remote cache, then the browser
resolver inside `try`).  For a non-string `url`, `b64_encode` raises inside
`load_from_remote_cache`'s `try` before any request is issued (a miss). -/
def afterLocal (bo : BrowserOracle) (ro : RemoteOracle) (sys : Sys) (urlV : PyVal) :
    HandlerOut :=
  match urlV with
  | .str u =>
    match load_from_remote_cache ro sys u with
    | (Option.some value, sys1) =>
      ⟨.ok (200, .dict [("resolved_url", value), ("cached", .bool true),
          ("cache_source", .str "remote")]), sys1, [ExtCall.remoteGet]⟩
    | (Option.none, sys1) =>
      tier3 bo (.str u) sys1 [ExtCall.remoteGet, ExtCall.browse]
  | _ => tier3 bo urlV sys [ExtCall.browse]

/-- Tier 1 plus the rest: the body of the handler once `url` is extracted.
For a non-string `url`, `get_cache_filepath` raises inside
`load_from_cache`'s `try`, a miss. -/
def resolveTiers (bo : BrowserOracle) (ro : RemoteOracle) (sys : Sys) (urlV : PyVal) :
    HandlerOut :=
  let hit := match urlV with
    | .str u => load_from_cache sys u
    | _ => Option.none
  match hit with
  | Option.some cd =>
    if truthy cd then
      match pyGetItem cd "resolved_url" with
      | .error e => ⟨.error e, sys, []⟩
      | .ok rv =>
        ⟨.ok (200, .dict [("resolved_url", rv), ("cached", .bool true),
            ("cache_source", .str "local")]), sys, []⟩
    else afterLocal bo ro sys urlV
  | Option.none => afterLocal bo ro sys urlV

/-- The `POST /resolve` handler.  `data` is the decoded request body
(`Option.none` when `request.get_json()` returned `None`). -/
def resolve (bo : BrowserOracle) (ro : RemoteOracle) (sys : Sys)
    (data : Option PyVal) : HandlerOut :=
  match data with
  | Option.none => ⟨.ok (400, missingUrlBody), sys, []⟩
  | Option.some d =>
    if truthy d then
      match pyContainsStr d "url" with
      | .error e => ⟨.error e, sys, []⟩
      | .ok true =>
        match pyGetItem d "url" with
        | .error e => ⟨.error e, sys, []⟩
        | .ok urlV => resolveTiers bo ro sys urlV
      | .ok false => ⟨.ok (400, missingUrlBody), sys, []⟩
    else ⟨.ok (400, missingUrlBody), sys, []⟩

/-- The request body `{"url": url}` used by the end-to-end scenarios. -/
def mkBody (url : String) : Option PyVal :=
  Option.some (.dict [("url", .str url)])

/-! ## Shared helper lemmas -/

theorem take_screenshot_eq (s : Sys) (n : String) : take_screenshot s n = s := by
  simp [take_screenshot, DEBUG]

theorem lookupFile_setFile_self (files : List (String × FileData)) (k : String)
    (v : FileData) : lookupFile (setFile files k v) k = Option.some v := by
  induction files with
  | nil => simp [setFile, lookupFile]
  | cons e rest ih =>
    by_cases h : e.1 = k
    · simp [setFile, h, lookupFile]
    · simp [setFile, h, lookupFile, ih]

theorem lookupFile_setFile_ne (files : List (String × FileData)) (k q : String)
    (v : FileData) (h : k ≠ q) :
    lookupFile (setFile files k v) q = lookupFile files q := by
  induction files with
  | nil => simp [setFile, lookupFile, h]
  | cons e rest ih =>
    by_cases he : e.1 = k
    · simp [setFile, he, lookupFile, h]
    · simp [setFile, he, lookupFile, ih]

theorem yearLen_ge (y : Nat) : 365 ≤ yearLen y := by
  unfold yearLen; split <;> omega

theorem findYear_day_lt :
    ∀ fuel y days, days ≤ fuel →
      (findYear fuel y days).2 < yearLen (findYear fuel y days).1 := by
  intro fuel
  induction fuel with
  | zero =>
    intro y days h
    have : days = 0 := Nat.le_zero.mp h
    subst this
    simpa [findYear] using Nat.lt_of_lt_of_le (by norm_num) (yearLen_ge y)
  | succ n ih =>
    intro y days h
    by_cases hy : yearLen y ≤ days
    · have h365 := yearLen_ge y
      have : days - yearLen y ≤ n := by omega
      simpa [findYear, hy] using ih (y + 1) (days - yearLen y) this
    · push_neg at hy
      simpa [findYear, Nat.not_le.mpr hy] using hy

theorem findYear_year_le :
    ∀ fuel y days, y ≤ (findYear fuel y days).1 := by
  intro fuel
  induction fuel with
  | zero => intro y days; simp [findYear]
  | succ n ih =>
    intro y days
    by_cases hy : yearLen y ≤ days
    · have := ih (y + 1) (days - yearLen y)
      simp only [findYear, hy, if_true]
      omega
    · simp [findYear, hy]

theorem findMonth_bounds :
    ∀ (lens : List Nat) (d : Nat), d < lens.sum → (∀ l ∈ lens, l ≤ 31) →
      (findMonth d lens).1 < lens.length ∧ (findMonth d lens).2 < 31 := by
  intro lens
  induction lens with
  | nil => intro d h _; simp at h
  | cons len rest ih =>
    intro d h hall
    by_cases hd : d < len
    · have hlen : len ≤ 31 := hall len (by simp)
      constructor
      · simp [findMonth, hd]
      · simp only [findMonth, hd, if_true]
        omega
    · push_neg at hd
      have hsum : d - len < rest.sum := by
        simp only [List.sum_cons] at h
        omega
      have hrest : ∀ l ∈ rest, l ≤ 31 := fun l hl => hall l (by simp [hl])
      have := ih (d - len) hsum hrest
      constructor
      · simp only [findMonth, Nat.not_lt.mpr hd, if_false, List.length_cons]
        omega
      · simpa [findMonth, Nat.not_lt.mpr hd] using this.2

theorem monthLengths_sum (leap : Bool) :
    (monthLengths leap).sum = if leap then 366 else 365 := by
  cases leap <;> simp [monthLengths]

theorem monthLengths_le (leap : Bool) : ∀ l ∈ monthLengths leap, l ≤ 31 := by
  cases leap <;> decide

/-- Field bounds of the embedded `time.gmtime` for every clock value. -/
theorem gmtime_valid (t : Nat) :
    1970 ≤ (gmtime t).year ∧ 1 ≤ (gmtime t).month ∧ (gmtime t).month ≤ 12 ∧
      1 ≤ (gmtime t).day ∧ (gmtime t).day ≤ 31 ∧ (gmtime t).hour < 24 ∧
      (gmtime t).minute < 60 ∧ (gmtime t).second < 60 := by
  have hyd := findYear_day_lt (t / 86400 + 1) 1970 (t / 86400) (by omega)
  have hyy := findYear_year_le (t / 86400 + 1) 1970 (t / 86400)
  set yd := findYear (t / 86400 + 1) 1970 (t / 86400) with hyddef
  have hsum : yd.2 < (monthLengths (isLeap yd.1)).sum := by
    rw [monthLengths_sum]
    have := yearLen_ge yd.1
    unfold yearLen at hyd
    by_cases h : isLeap yd.1 <;> simp [h] at hyd ⊢ <;> omega
  have hmd := findMonth_bounds (monthLengths (isLeap yd.1)) yd.2 hsum
    (monthLengths_le (isLeap yd.1))
  have hlen : (monthLengths (isLeap yd.1)).length = 12 := by
    cases h : isLeap yd.1 <;> simp [monthLengths]
  refine ⟨?_, ?_, ?_, ?_, ?_, ?_, ?_, ?_⟩ <;>
    simp only [gmtime, ← hyddef]
  · exact hyy
  · omega
  · omega
  · omega
  · omega
  · omega
  · omega
  · omega

/-- Whether tier 1 misses: no local record, or a falsy one. -/
def localMissB (sys : Sys) (url : String) : Bool :=
  match load_from_cache sys url with
  | Option.none => true
  | Option.some v => !truthy v

/-- The value a remote-cache response yields on a hit (`ok` and `value`
both truthy), `Option.none` on a miss. -/
def remoteHitVal (r : RemoteResp) : Option PyVal :=
  match r with
  | .netError _ => Option.none
  | .json (.dict kvs) =>
    if truthy (dgetD kvs "ok" PyVal.none) && truthy (dgetD kvs "value" PyVal.none) then
      Option.some (dgetD kvs "value" PyVal.none)
    else Option.none
  | .json _ => Option.none

theorem load_from_remote_cache_miss (ro : RemoteOracle) (sys : Sys) (url : String)
    (h : remoteHitVal ro.getResp = Option.none) :
    load_from_remote_cache ro sys url = (Option.none, sys) := by
  unfold load_from_remote_cache
  unfold remoteHitVal at h
  match hr : ro.getResp with
  | .netError _ => rfl
  | .json (.dict kvs) =>
    rw [hr] at h
    simp only [hr]
    split
    · simp_all
    · rfl
  | .json PyVal.none => rfl
  | .json (.bool _) => rfl
  | .json (.int _) => rfl
  | .json (.str _) => rfl
  | .json (.list _) => rfl

theorem load_from_remote_cache_hit (ro : RemoteOracle) (sys : Sys) (url : String)
    (value : PyVal) (h : remoteHitVal ro.getResp = Option.some value) :
    load_from_remote_cache ro sys url
      = (Option.some value, save_to_cache sys url value) := by
  unfold load_from_remote_cache
  unfold remoteHitVal at h
  match hr : ro.getResp with
  | .netError _ => rw [hr] at h; exact absurd h (by simp)
  | .json (.dict kvs) =>
    rw [hr] at h
    simp only [hr]
    split
    · simp_all
    · simp_all
  | .json PyVal.none => rw [hr] at h; exact absurd h (by simp)
  | .json (.bool _) => rw [hr] at h; exact absurd h (by simp)
  | .json (.int _) => rw [hr] at h; exact absurd h (by simp)
  | .json (.str _) => rw [hr] at h; exact absurd h (by simp)
  | .json (.list _) => rw [hr] at h; exact absurd h (by simp)

/-!
### C8 — local cache put/get round trip
-/

/-- C8: for every url and resolved value, `save_to_cache` followed by
`load_from_cache` on the same url returns the stored record: its
`resolved_url` is the stored value, its `original_url` is the url, and its
`resolved_at` is exactly the formatted timestamp of the clock at the write
(hence not earlier than the write time), a well-formed UTC timestamp whose
calendar and clock fields are always in range. -/
theorem C8_put_then_get (sys : Sys) (url resolved_url : String) :
    load_from_cache (save_to_cache sys url (.str resolved_url)) url
        = Option.some (cacheRecord url (.str resolved_url) sys.now) ∧
      pyGetItem (cacheRecord url (.str resolved_url) sys.now) "resolved_url"
        = .ok (.str resolved_url) ∧
      pyGetItem (cacheRecord url (.str resolved_url) sys.now) "original_url"
        = .ok (.str url) ∧
      pyGetItem (cacheRecord url (.str resolved_url) sys.now) "resolved_at"
        = .ok (.str (fmtTime sys.now)) ∧
      fmtTime sys.now = tsFormat (gmtime sys.now).year (gmtime sys.now).month
        (gmtime sys.now).day (gmtime sys.now).hour (gmtime sys.now).minute
        (gmtime sys.now).second ∧
      1970 ≤ (gmtime sys.now).year ∧
      1 ≤ (gmtime sys.now).month ∧ (gmtime sys.now).month ≤ 12 ∧
      1 ≤ (gmtime sys.now).day ∧ (gmtime sys.now).day ≤ 31 ∧
      (gmtime sys.now).hour < 24 ∧ (gmtime sys.now).minute < 60 ∧
      (gmtime sys.now).second < 60 := by
  have hv := gmtime_valid sys.now
  refine ⟨?_, ?_, ?_, ?_, rfl, hv.1, hv.2.1, hv.2.2.1, hv.2.2.2.1,
    hv.2.2.2.2.1, hv.2.2.2.2.2.1, hv.2.2.2.2.2.2.1, hv.2.2.2.2.2.2.2⟩
  · simp [load_from_cache, save_to_cache, lookupFile_setFile_self]
  · simp [cacheRecord, pyGetItem, dlookup]
  · simp [cacheRecord, pyGetItem, dlookup]
  · simp [cacheRecord, pyGetItem, dlookup]

/-!
### C9 — remote hit back-fills the local cache
-/

/-- C9: a remote-cache hit (decoded response with truthy `ok` and a
non-empty `value`) back-fills the local cache as a side effect: on a
previously-empty local cache, `load_from_remote_cache` returns the value
and a subsequent `load_from_cache` for the same URL is a hit whose
`resolved_url` is that same value. -/
theorem C9_remote_hit_backfills (ro : RemoteOracle) (sys : Sys) (url : String)
    (kvs : List (String × PyVal)) (value : String)
    (hresp : ro.getResp = .json (.dict kvs))
    (hok : truthy (dgetD kvs "ok" PyVal.none) = true)
    (hval : dgetD kvs "value" PyVal.none = .str value)
    (hne : value ≠ "")
    (hempty : load_from_cache sys url = Option.none) :
    (load_from_remote_cache ro sys url).1 = Option.some (.str value) ∧
      load_from_cache (load_from_remote_cache ro sys url).2 url
        = Option.some (cacheRecord url (.str value) sys.now) ∧
      pyGetItem (cacheRecord url (.str value) sys.now) "resolved_url"
        = .ok (.str value) := by
  have hhit : remoteHitVal ro.getResp = Option.some (.str value) := by
    have hvt : truthy (.str value) = true := by simp [truthy, hne]
    simp [remoteHitVal, hresp, hok, hval, hvt]
  have h := load_from_remote_cache_hit ro sys url (.str value) hhit
  refine ⟨by simp [h], ?_, by simp [cacheRecord, pyGetItem, dlookup]⟩
  simp [h, load_from_cache, save_to_cache, lookupFile_setFile_self]

/-- Witness for C9 at a concrete remote response and empty local cache. -/
theorem C9_remote_hit_backfills_witness :
    (load_from_remote_cache
        ⟨.json (.dict [("ok", .bool true), ("value", .str "http://files.example/a.zip")]),
         .netError "down"⟩
        ⟨⟨[], []⟩, 0, 0⟩ "http://dl-protect.link/a").1
      = Option.some (.str "http://files.example/a.zip") ∧
    load_from_cache
        (load_from_remote_cache
          ⟨.json (.dict [("ok", .bool true), ("value", .str "http://files.example/a.zip")]),
           .netError "down"⟩
          ⟨⟨[], []⟩, 0, 0⟩ "http://dl-protect.link/a").2 "http://dl-protect.link/a"
      = Option.some (cacheRecord "http://dl-protect.link/a"
          (.str "http://files.example/a.zip") 0) ∧
    pyGetItem (cacheRecord "http://dl-protect.link/a"
          (.str "http://files.example/a.zip") 0) "resolved_url"
      = .ok (.str "http://files.example/a.zip") :=
  C9_remote_hit_backfills
    ⟨.json (.dict [("ok", .bool true), ("value", .str "http://files.example/a.zip")]),
     .netError "down"⟩
    ⟨⟨[], []⟩, 0, 0⟩ "http://dl-protect.link/a"
    [("ok", .bool true), ("value", .str "http://files.example/a.zip")]
    "http://files.example/a.zip" rfl rfl rfl (by decide) rfl

/-!
### C10 — frame condition of `clear_cache` and its endpoint
-/

theorem removeFile_cons (e : String × FileData) (rest : List (String × FileData))
    (q : String) :
    removeFile (e :: rest) q
      = if e.1 = q then removeFile rest q else e :: removeFile rest q := by
  by_cases he : e.1 = q <;> simp [removeFile, List.filter_cons, he]

theorem lookupFile_removeFile_ne (files : List (String × FileData)) (p q : String)
    (h : p ≠ q) : lookupFile (removeFile files q) p = lookupFile files p := by
  induction files with
  | nil => rfl
  | cons e rest ih =>
    rw [removeFile_cons]
    by_cases he : e.1 = q
    · rw [if_pos he, ih]
      have hep : ¬ e.1 = p := by rw [he]; exact Ne.symm h
      simp [lookupFile, hep]
    · rw [if_neg he]
      by_cases hp : e.1 = p
      · simp [lookupFile, hp]
      · simp [lookupFile, hp, ih]

theorem lookupFile_removeFile_self (files : List (String × FileData)) (q : String) :
    lookupFile (removeFile files q) q = Option.none := by
  induction files with
  | nil => rfl
  | cons e rest ih =>
    rw [removeFile_cons]
    by_cases he : e.1 = q
    · rw [if_pos he]; exact ih
    · rw [if_neg he]; simpa [lookupFile, he] using ih

theorem clearLoop_not_mem (removeOk : String → Bool)
    (ps : List String) (files : List (String × FileData)) (p : String)
    (h : p ∉ ps) :
    lookupFile (clearLoop removeOk files ps) p = lookupFile files p := by
  induction ps generalizing files with
  | nil => rfl
  | cons q ps ih =>
    have hq : p ≠ q := fun e => h (by simp [e])
    have hps : p ∉ ps := fun e => h (by simp [e])
    by_cases hok : removeOk q = true
    · simp only [clearLoop, hok, if_true]
      rw [ih _ hps, lookupFile_removeFile_ne _ _ _ hq]
    · simp [clearLoop, hok]

theorem clearLoop_none_stays (removeOk : String → Bool)
    (ps : List String) (files : List (String × FileData)) (p : String)
    (h : lookupFile files p = Option.none) :
    lookupFile (clearLoop removeOk files ps) p = Option.none := by
  induction ps generalizing files with
  | nil => exact h
  | cons q ps ih =>
    by_cases hok : removeOk q = true
    · simp only [clearLoop, hok, if_true]
      refine ih _ ?_
      by_cases hq : p = q
      · subst hq; exact lookupFile_removeFile_self _ _
      · rw [lookupFile_removeFile_ne _ _ _ hq]; exact h
    · simpa [clearLoop, hok] using h

theorem clearLoop_mem (ps : List String) (files : List (String × FileData))
    (p : String) (h : p ∈ ps) :
    lookupFile (clearLoop (fun _ => true) files ps) p = Option.none := by
  induction ps generalizing files with
  | nil => simp at h
  | cons q ps ih =>
    by_cases hq : p = q
    · subst hq
      simp only [clearLoop, if_true]
      exact clearLoop_none_stays _ _ _ _ (lookupFile_removeFile_self _ _)
    · have : p ∈ ps := by
        rcases List.mem_cons.mp h with h' | h'
        · exact absurd h' hq
        · exact h'
      simpa [clearLoop] using ih _ this

theorem lookupFile_mem_map (files : List (String × FileData)) (p : String)
    (h : lookupFile files p ≠ Option.none) : p ∈ files.map Prod.fst := by
  induction files with
  | nil => simp [lookupFile] at h
  | cons e rest ih =>
    by_cases he : e.1 = p
    · simp [he]
    · simp only [lookupFile, he, if_false] at h
      simp [ih h]

/-- C10: `clear_cache` removes exactly the `*.json` files directly under
the links subdirectory and nothing else — every non-matching path (debug
screenshots in the cache root included) is untouched under any I/O-fault
pattern, every matching path is gone after a fault-free clear, clearing
with no links directory is a no-op — and the `/cache/clear` endpoint
answers `ok` in every case. -/
theorem C10_clear_cache_frame :
    (∀ (removeOk : String → Bool) (sys : Sys) (p : String),
        globLinksMatch p = false →
        lookupFile (clear_cache removeOk sys).fs.files p
          = lookupFile sys.fs.files p) ∧
    (∀ (sys : Sys) (p : String), CACHE_SUBDIR ∈ sys.fs.dirs →
        globLinksMatch p = true →
        lookupFile (clear_cache (fun _ => true) sys).fs.files p = Option.none) ∧
    (∀ (removeOk : String → Bool) (sys : Sys),
        (clear_cache removeOk sys).fs.dirs = sys.fs.dirs ∧
        (clear_cache removeOk sys).now = sys.now) ∧
    (∀ (removeOk : String → Bool) (sys : Sys), CACHE_SUBDIR ∉ sys.fs.dirs →
        clear_cache removeOk sys = sys) ∧
    (∀ (removeOk : String → Bool) (sys : Sys),
        (clear_cache_endpoint removeOk sys).1
          = (200, .dict [("status", .str "ok"), ("message", .str "Cache cleared")])) := by
  refine ⟨?_, ?_, ?_, ?_, fun _ _ => rfl⟩
  · intro removeOk sys p hp
    unfold clear_cache
    split
    · refine clearLoop_not_mem _ _ _ _ ?_
      intro hmem
      have := List.of_mem_filter hmem
      simp [hp] at this
    · rfl
  · intro sys p hdir hp
    unfold clear_cache
    rw [if_pos hdir]
    by_cases h0 : lookupFile sys.fs.files p = Option.none
    · exact clearLoop_none_stays _ _ _ _ h0
    · refine clearLoop_mem _ _ _ ?_
      exact List.mem_filter.mpr ⟨lookupFile_mem_map _ _ h0, hp⟩
  · intro removeOk sys
    unfold clear_cache
    split <;> simp
  · intro removeOk sys h
    simp [clear_cache, h]

/-- Witness for C10 at a concrete state: a screenshot in the cache root
survives a clear, a links-directory entry does not, and the endpoint
answers `ok`. -/
theorem C10_clear_cache_frame_witness :
    lookupFile
        (clear_cache (fun _ => true)
          ⟨⟨[CACHE_SUBDIR],
            [(CACHE_SUBDIR ++ "/aa.json", .raw), (CACHE_DIR ++ "/001_x.png", .raw)]⟩,
           0, 0⟩).fs.files (CACHE_DIR ++ "/001_x.png")
      = lookupFile
        [(CACHE_SUBDIR ++ "/aa.json", FileData.raw), (CACHE_DIR ++ "/001_x.png", FileData.raw)]
        (CACHE_DIR ++ "/001_x.png") ∧
    lookupFile
        (clear_cache (fun _ => true)
          ⟨⟨[CACHE_SUBDIR],
            [(CACHE_SUBDIR ++ "/aa.json", .raw), (CACHE_DIR ++ "/001_x.png", .raw)]⟩,
           0, 0⟩).fs.files (CACHE_SUBDIR ++ "/aa.json")
      = Option.none ∧
    (clear_cache_endpoint (fun _ => true)
        ⟨⟨[CACHE_SUBDIR],
          [(CACHE_SUBDIR ++ "/aa.json", .raw), (CACHE_DIR ++ "/001_x.png", .raw)]⟩,
         0, 0⟩).1
      = (200, .dict [("status", .str "ok"), ("message", .str "Cache cleared")]) :=
  ⟨C10_clear_cache_frame.1 (fun _ => true) _ _ (by decide),
   C10_clear_cache_frame.2.1 _ _ (by decide) (by decide),
   C10_clear_cache_frame.2.2.2.2 (fun _ => true) _⟩

/-!
### C7 — Turnstile phase is non-fatal, single click attempt
-/

theorem solve_turnstile_state (t : TOracle) (sys : Sys) :
    (solve_turnstile t sys).2 = sys := by
  unfold solve_turnstile
  simp only [take_screenshot_eq]
  repeat' split
  all_goals rfl

/-- C7: in the SolveChallenge phase every failure (detection `run_js`,
iframe location, checkbox location, the click itself) is caught: the phase
performs at most one click attempt, and the outcome of `resolve_dlprotect`
does not depend on the Turnstile phase's oracle at all — the flow proceeds
to the AwaitActionEnabled phase regardless. -/
theorem C7_turnstile_nonfatal :
    (∀ (t : TOracle) (sys : Sys), (solve_turnstile t sys).1 ≤ 1) ∧
    (∀ (nav pr : Except String Unit) (t t' : TOracle)
        (btn : Nat → Except String PyVal) (sc : Except String Unit)
        (link : Nat → Except String (Option String)) (sys : Sys),
        resolve_dlprotect ⟨nav, pr, t, btn, sc, link⟩ sys
          = resolve_dlprotect ⟨nav, pr, t', btn, sc, link⟩ sys) := by
  constructor
  · intro t sys
    unfold solve_turnstile
    simp only [take_screenshot_eq]
    repeat' split
    all_goals first
      | exact Nat.zero_le 1
      | exact Nat.le_refl 1
  · intro nav pr t t' btn sc link sys
    simp only [resolve_dlprotect, take_screenshot_eq, solve_turnstile_state]

/-!
### C4 — AwaitActionEnabled budget and the timeout path
-/

theorem button_loop_congr (btn btn' : Nat → Except String PyVal) :
    ∀ fuel w, (∀ i, w ≤ i → i < w + fuel → btn i = btn' i) →
      button_loop btn fuel w = button_loop btn' fuel w := by
  intro fuel
  induction fuel with
  | zero => intro w _; rfl
  | succ n ih =>
    intro w h
    have h0 : btn w = btn' w := h w (le_refl w) (by omega)
    have hp : pollStep btn w = pollStep btn' w := by unfold pollStep; rw [h0]
    unfold button_loop
    rw [hp]
    cases hpp : pollStep btn' w with
    | error e => rfl
    | ok b =>
      cases b with
      | true => rfl
      | false => exact ih (w + 1) (fun i h1 h2 => h i (by omega) (by omega))

theorem button_loop_ok_le (btn : Nat → Except String PyVal) :
    ∀ fuel w r, button_loop btn fuel w = .ok r → r ≤ w + fuel := by
  intro fuel
  induction fuel with
  | zero =>
    intro w r h
    simp only [button_loop] at h
    cases h
    omega
  | succ n ih =>
    intro w r h
    unfold button_loop at h
    cases hp : pollStep btn w with
    | error e => rw [hp] at h; cases h
    | ok b =>
      rw [hp] at h
      cases b with
      | true => cases h; omega
      | false =>
        have := ih (w + 1) r h
        omega

theorem button_loop_first_true (btn : Nat → Except String PyVal) :
    ∀ fuel w k, w ≤ k → k < w + fuel →
      (∀ j, w ≤ j → j < k → pollStep btn j = .ok false) →
      pollStep btn k = .ok true → button_loop btn fuel w = .ok k := by
  intro fuel
  induction fuel with
  | zero => intro w k h1 h2; omega
  | succ n ih =>
    intro w k h1 h2 hrej hk
    by_cases hw : w = k
    · subst hw
      unfold button_loop
      rw [hk]
    · have hlt : w < k := by omega
      unfold button_loop
      rw [hrej w (le_refl w) hlt]
      exact ih (w + 1) k (by omega) (by omega) (fun j ha hb => hrej j (by omega) hb) hk

theorem button_loop_all_false (btn : Nat → Except String PyVal) :
    ∀ fuel w, (∀ j, w ≤ j → j < w + fuel → pollStep btn j = .ok false) →
      button_loop btn fuel w = .ok (w + fuel) := by
  intro fuel
  induction fuel with
  | zero => intro w _; rfl
  | succ n ih =>
    intro w h
    unfold button_loop
    rw [h w (le_refl w) (by omega)]
    have hrec := ih (w + 1) (fun j ha hb => h j (by omega) (by omega))
    have harith : w + 1 + n = w + (n + 1) := by omega
    rw [hrec, harith]

/-- The state threading of `resolve_dlprotect` is the identity (screenshots
are suppressed outside debug mode). -/
theorem resolve_dlprotect_state (bo : BrowserOracle) (sys : Sys) :
    (resolve_dlprotect bo sys).2 = sys := by
  unfold resolve_dlprotect
  simp only [take_screenshot_eq, solve_turnstile_state]
  repeat' split
  all_goals rfl

theorem resolve_dlprotect_timeout (bo : BrowserOracle) (sys : Sys)
    (hnav : bo.nav = .ok ()) (hpr : bo.pageReady = .ok ())
    (hbtn : ∀ i, i < 30 → pollStep bo.btnInfo i = .ok false) :
    resolve_dlprotect bo sys = (.ok Option.none, sys) := by
  have hloop : button_loop bo.btnInfo 30 0 = .ok 30 := by
    simpa using button_loop_all_false bo.btnInfo 30 0 (fun j _ hb => hbtn j (by omega))
  unfold resolve_dlprotect
  rw [hnav, hpr]
  simp [take_screenshot_eq, solve_turnstile_state, hloop]

theorem resolve_mkBody (bo : BrowserOracle) (ro : RemoteOracle) (sys : Sys)
    (url : String) :
    resolve bo ro sys (mkBody url) = resolveTiers bo ro sys (.str url) := by
  simp [resolve, mkBody, truthy, pyContainsStr, dlookup, pyGetItem]

theorem resolveTiers_miss (bo : BrowserOracle) (ro : RemoteOracle) (sys : Sys)
    (url : String) (h : localMissB sys url = true) :
    resolveTiers bo ro sys (.str url) = afterLocal bo ro sys (.str url) := by
  unfold localMissB at h
  unfold resolveTiers
  cases hl : load_from_cache sys url with
  | none => simp [hl]
  | some v =>
    rw [hl] at h
    simp only [Bool.not_eq_true'] at h
    simp [hl, h]

/-- C4: the AwaitActionEnabled phase consults the submit control for at
most 30 iterations (its outcome depends only on the first 30 DOM
inspections, and its exit index never exceeds 30); it exits as soon as the
control exists and is not disabled; and when every iteration within the
budget rejects, `/resolve` (after local and remote misses) answers
`200 {resolved_url: original, cached: false, error: "Could not resolve
link"}` with the state unchanged and no remote-cache write issued. -/
theorem C4_await_action_enabled :
    (∀ (btn btn' : Nat → Except String PyVal), (∀ i, i < 30 → btn i = btn' i) →
        button_loop btn 30 0 = button_loop btn' 30 0) ∧
    (∀ (btn : Nat → Except String PyVal) (r : Nat),
        button_loop btn 30 0 = .ok r → r ≤ 30) ∧
    (∀ (btn : Nat → Except String PyVal) (k : Nat), k < 30 →
        (∀ j, j < k → pollStep btn j = .ok false) →
        pollStep btn k = .ok true → button_loop btn 30 0 = .ok k) ∧
    (∀ (bo : BrowserOracle) (ro : RemoteOracle) (sys : Sys) (url : String),
        bo.nav = .ok () → bo.pageReady = .ok () →
        (∀ i, i < 30 → pollStep bo.btnInfo i = .ok false) →
        localMissB sys url = true → remoteHitVal ro.getResp = Option.none →
        (resolve bo ro sys (mkBody url)).result
            = .ok (200, errorBody (.str url) "Could not resolve link") ∧
          (resolve bo ro sys (mkBody url)).sys = sys ∧
          ∀ u v, ExtCall.remotePost u v ∉ (resolve bo ro sys (mkBody url)).calls) := by
  refine ⟨?_, ?_, ?_, ?_⟩
  · intro btn btn' h
    exact button_loop_congr btn btn' 30 0 (fun i _ h2 => h i (by omega))
  · intro btn r h
    simpa using button_loop_ok_le btn 30 0 r h
  · intro btn k hk hrej htrue
    exact button_loop_first_true btn 30 0 k (by omega) (by omega)
      (fun j _ hb => hrej j hb) htrue
  · intro bo ro sys url hnav hpr hbtn hlocal hremote
    have hres : resolve bo ro sys (mkBody url)
        = ⟨.ok (200, errorBody (.str url) "Could not resolve link"), sys,
           [ExtCall.remoteGet, ExtCall.browse]⟩ := by
      rw [resolve_mkBody, resolveTiers_miss bo ro sys url hlocal]
      have hlr := load_from_remote_cache_miss ro sys url hremote
      simp [afterLocal, tier3, hlr, resolve_dlprotect_timeout bo sys hnav hpr hbtn]
    refine ⟨by rw [hres], by rw [hres], ?_⟩
    intro u v hmem
    rw [hres] at hmem
    simp at hmem

/-- Witness for C4 at a concrete never-enabled button oracle with empty
caches. -/
theorem C4_await_action_enabled_witness :
    (resolve
        ⟨.ok (), .ok (), ⟨.ok PyVal.none, .ok (), .ok (), .ok ()⟩,
         fun _ => .ok (.dict [("exists", .bool false)]), .ok (),
         fun _ => .ok Option.none⟩
        ⟨.netError "down", .netError "down"⟩
        ⟨⟨[], []⟩, 0, 0⟩ (mkBody "http://dl-protect.link/abc")).result
      = .ok (200, errorBody (.str "http://dl-protect.link/abc") "Could not resolve link") ∧
    (resolve
        ⟨.ok (), .ok (), ⟨.ok PyVal.none, .ok (), .ok (), .ok ()⟩,
         fun _ => .ok (.dict [("exists", .bool false)]), .ok (),
         fun _ => .ok Option.none⟩
        ⟨.netError "down", .netError "down"⟩
        ⟨⟨[], []⟩, 0, 0⟩ (mkBody "http://dl-protect.link/abc")).sys
      = ⟨⟨[], []⟩, 0, 0⟩ ∧
    ∀ u v, ExtCall.remotePost u v ∉
      (resolve
        ⟨.ok (), .ok (), ⟨.ok PyVal.none, .ok (), .ok (), .ok ()⟩,
         fun _ => .ok (.dict [("exists", .bool false)]), .ok (),
         fun _ => .ok Option.none⟩
        ⟨.netError "down", .netError "down"⟩
        ⟨⟨[], []⟩, 0, 0⟩ (mkBody "http://dl-protect.link/abc")).calls :=
  C4_await_action_enabled.2.2.2
    ⟨.ok (), .ok (), ⟨.ok PyVal.none, .ok (), .ok (), .ok ()⟩,
     fun _ => .ok (.dict [("exists", .bool false)]), .ok (),
     fun _ => .ok Option.none⟩
    ⟨.netError "down", .netError "down"⟩
    ⟨⟨[], []⟩, 0, 0⟩ "http://dl-protect.link/abc"
    rfl rfl (fun i _ => rfl) rfl rfl

/-!
### C3 — tier order and short-circuiting
-/

/-- C3: the orchestrator consults local cache, remote cache, resolver in
order and short-circuits on the first hit: a local hit answers
`{cached: true, cache_source: "local"}` with no external call at all
(neither the remote cache nor the resolver is contacted) and no state
change; a remote hit answers `{cached: true, cache_source: "remote"}`
having contacted only the remote cache (the resolver is not invoked),
back-filling the local cache. -/
theorem C3_tier_order :
    (∀ (bo : BrowserOracle) (ro : RemoteOracle) (sys : Sys) (url : String)
        (v rv : PyVal), load_from_cache sys url = Option.some v →
        truthy v = true → pyGetItem v "resolved_url" = .ok rv →
        resolve bo ro sys (mkBody url)
          = ⟨.ok (200, .dict [("resolved_url", rv), ("cached", .bool true),
              ("cache_source", .str "local")]), sys, []⟩) ∧
    (∀ (bo : BrowserOracle) (ro : RemoteOracle) (sys : Sys) (url : String)
        (value : PyVal), localMissB sys url = true →
        remoteHitVal ro.getResp = Option.some value →
        resolve bo ro sys (mkBody url)
          = ⟨.ok (200, .dict [("resolved_url", value), ("cached", .bool true),
              ("cache_source", .str "remote")]),
             save_to_cache sys url value, [ExtCall.remoteGet]⟩) := by
  constructor
  · intro bo ro sys url v rv hl htr hrv
    rw [resolve_mkBody]
    unfold resolveTiers
    simp [hl, htr, hrv]
  · intro bo ro sys url value hmiss hhit
    rw [resolve_mkBody, resolveTiers_miss bo ro sys url hmiss]
    have h := load_from_remote_cache_hit ro sys url value hhit
    simp [afterLocal, h]

/-- Witness for C3: a concrete local hit short-circuits with no external
calls, and a concrete remote hit short-circuits without the resolver. -/
theorem C3_tier_order_witness :
    resolve
        ⟨.ok (), .ok (), ⟨.ok PyVal.none, .ok (), .ok (), .ok ()⟩,
         fun _ => .ok PyVal.none, .ok (), fun _ => .ok Option.none⟩
        ⟨.netError "down", .netError "down"⟩
        ⟨⟨[], [(get_cache_filepath "http://dl-protect.link/abc",
            .json (cacheRecord "http://dl-protect.link/abc"
              (.str "http://files.example/abc.zip") 0))]⟩, 5, 0⟩
        (mkBody "http://dl-protect.link/abc")
      = ⟨.ok (200, .dict [("resolved_url", .str "http://files.example/abc.zip"),
          ("cached", .bool true), ("cache_source", .str "local")]),
         ⟨⟨[], [(get_cache_filepath "http://dl-protect.link/abc",
            .json (cacheRecord "http://dl-protect.link/abc"
              (.str "http://files.example/abc.zip") 0))]⟩, 5, 0⟩, []⟩ ∧
    resolve
        ⟨.ok (), .ok (), ⟨.ok PyVal.none, .ok (), .ok (), .ok ()⟩,
         fun _ => .ok PyVal.none, .ok (), fun _ => .ok Option.none⟩
        ⟨.json (.dict [("ok", .bool true), ("value", .str "http://files.example/abc.zip")]),
         .netError "down"⟩
        ⟨⟨[], []⟩, 5, 0⟩ (mkBody "http://dl-protect.link/abc")
      = ⟨.ok (200, .dict [("resolved_url", .str "http://files.example/abc.zip"),
          ("cached", .bool true), ("cache_source", .str "remote")]),
         save_to_cache ⟨⟨[], []⟩, 5, 0⟩ "http://dl-protect.link/abc"
           (.str "http://files.example/abc.zip"), [ExtCall.remoteGet]⟩ :=
  ⟨C3_tier_order.1
      ⟨.ok (), .ok (), ⟨.ok PyVal.none, .ok (), .ok (), .ok ()⟩,
       fun _ => .ok PyVal.none, .ok (), fun _ => .ok Option.none⟩
      ⟨.netError "down", .netError "down"⟩
      ⟨⟨[], [(get_cache_filepath "http://dl-protect.link/abc",
          .json (cacheRecord "http://dl-protect.link/abc"
            (.str "http://files.example/abc.zip") 0))]⟩, 5, 0⟩
      "http://dl-protect.link/abc"
      (cacheRecord "http://dl-protect.link/abc" (.str "http://files.example/abc.zip") 0)
      (.str "http://files.example/abc.zip")
      (by simp [load_from_cache, lookupFile]) (by decide)
      (by simp [cacheRecord, pyGetItem, dlookup]),
   C3_tier_order.2
      ⟨.ok (), .ok (), ⟨.ok PyVal.none, .ok (), .ok (), .ok ()⟩,
       fun _ => .ok PyVal.none, .ok (), fun _ => .ok Option.none⟩
      ⟨.json (.dict [("ok", .bool true), ("value", .str "http://files.example/abc.zip")]),
       .netError "down"⟩
      ⟨⟨[], []⟩, 5, 0⟩ "http://dl-protect.link/abc"
      (.str "http://files.example/abc.zip") rfl rfl⟩

/-!
### C5 — AwaitFinalLink acceptance condition
-/

/-- Whether one link-poll iteration rejects and continues (no anchor yet,
or an anchor the acceptance test refuses). -/
def linkStepCont (r : Except String (Option String)) : Bool :=
  match r with
  | .ok Option.none => true
  | .ok (Option.some l) => !linkOk l
  | .error _ => false

theorem link_loop_congr (linkAt linkAt' : Nat → Except String (Option String)) :
    ∀ fuel w, (∀ i, w ≤ i → i < w + fuel → linkAt i = linkAt' i) →
      link_loop linkAt fuel w = link_loop linkAt' fuel w := by
  intro fuel
  induction fuel with
  | zero => intro w _; rfl
  | succ n ih =>
    intro w h
    have h0 : linkAt w = linkAt' w := h w (le_refl w) (by omega)
    unfold link_loop
    rw [h0]
    cases linkAt' w with
    | error e => rfl
    | ok o =>
      cases o with
      | none => exact ih (w + 1) (fun i h1 h2 => h i (by omega) (by omega))
      | some l =>
        by_cases hok : linkOk l = true
        · simp [hok]
        · have hco : linkOk l = false := by
            cases hv : linkOk l
            · rfl
            · exact absurd hv hok
          simp only [hco, Bool.false_eq_true, if_false]
          exact ih (w + 1) (fun i h1 h2 => h i (by omega) (by omega))

theorem link_loop_first (linkAt : Nat → Except String (Option String)) :
    ∀ fuel w k l, w ≤ k → k < w + fuel →
      (∀ j, w ≤ j → j < k → linkStepCont (linkAt j) = true) →
      linkAt k = .ok (Option.some l) → linkOk l = true →
      link_loop linkAt fuel w = Option.some l := by
  intro fuel
  induction fuel with
  | zero => intro w k l h1 h2; omega
  | succ n ih =>
    intro w k l h1 h2 hrej hk hok
    by_cases hw : w = k
    · subst hw
      unfold link_loop
      rw [hk]
      simp [hok]
    · have hlt : w < k := by omega
      have hstep := hrej w (le_refl w) hlt
      unfold link_loop
      unfold linkStepCont at hstep
      cases hc : linkAt w with
      | error e => rw [hc] at hstep; simp at hstep
      | ok o =>
        rw [hc] at hstep
        cases o with
        | none =>
          exact ih (w + 1) k l (by omega) (by omega)
            (fun j ha hb => hrej j (by omega) hb) hk hok
        | some l' =>
          simp only [Bool.not_eq_true'] at hstep
          simp only [hstep, Bool.false_eq_true, if_false]
          exact ih (w + 1) k l (by omega) (by omega)
            (fun j ha hb => hrej j (by omega) hb) hk hok

theorem link_loop_all_cont (linkAt : Nat → Except String (Option String)) :
    ∀ fuel w, (∀ j, w ≤ j → j < w + fuel → linkStepCont (linkAt j) = true) →
      link_loop linkAt fuel w = Option.none := by
  intro fuel
  induction fuel with
  | zero => intro w _; rfl
  | succ n ih =>
    intro w h
    have hstep := h w (le_refl w) (by omega)
    unfold link_loop
    unfold linkStepCont at hstep
    cases hc : linkAt w with
    | error e => rfl
    | ok o =>
      rw [hc] at hstep
      cases o with
      | none => exact ih (w + 1) (fun j ha hb => h j (by omega) (by omega))
      | some l' =>
        simp only [Bool.not_eq_true'] at hstep
        simp only [hstep, Bool.false_eq_true, if_false]
        exact ih (w + 1) (fun j ha hb => h j (by omega) (by omega))

theorem link_loop_sound (linkAt : Nat → Except String (Option String)) :
    ∀ fuel w l, link_loop linkAt fuel w = Option.some l →
      ∃ k, w ≤ k ∧ k < w + fuel ∧ linkAt k = .ok (Option.some l) ∧
        linkOk l = true := by
  intro fuel
  induction fuel with
  | zero => intro w l h; simp [link_loop] at h
  | succ n ih =>
    intro w l h
    unfold link_loop at h
    cases hc : linkAt w with
    | error e => rw [hc] at h; cases h
    | ok o =>
      rw [hc] at h
      cases o with
      | none =>
        obtain ⟨k, h1, h2, h3, h4⟩ := ih (w + 1) l h
        exact ⟨k, by omega, by omega, h3, h4⟩
      | some l' =>
        cases hok : linkOk l' with
        | true =>
          simp only [hok, if_true] at h
          cases h
          exact ⟨w, le_refl w, by omega, hc, hok⟩
        | false =>
          simp only [hok, Bool.false_eq_true, if_false] at h
          obtain ⟨k, h1, h2, h3, h4⟩ := ih (w + 1) l h
          exact ⟨k, by omega, by omega, h3, h4⟩

/-- C5 (amended): the AwaitFinalLink phase consults the container for at
most 15 iterations and returns a link exactly when, within that budget, an
anchor href is present that is non-empty and is not a dl-protect link in
the sense of `is_dlprotect_link` (no protector domain occurs inside its
netloc); a present link that fails that test is rejected and polling
continues, and exhausting the budget yields no result. -/
theorem C5_await_final_link :
    (∀ (linkAt linkAt' : Nat → Except String (Option String)),
        (∀ i, i < 15 → linkAt i = linkAt' i) →
        link_loop linkAt 15 0 = link_loop linkAt' 15 0) ∧
    (∀ (linkAt : Nat → Except String (Option String)) (k : Nat) (l : String),
        k < 15 → (∀ j, j < k → linkStepCont (linkAt j) = true) →
        linkAt k = .ok (Option.some l) → linkOk l = true →
        link_loop linkAt 15 0 = Option.some l) ∧
    (∀ (linkAt : Nat → Except String (Option String)),
        (∀ j, j < 15 → linkStepCont (linkAt j) = true) →
        link_loop linkAt 15 0 = Option.none) ∧
    (∀ (linkAt : Nat → Except String (Option String)) (l : String),
        link_loop linkAt 15 0 = Option.some l →
        ∃ k, k < 15 ∧ linkAt k = .ok (Option.some l) ∧ l ≠ "" ∧
          is_dlprotect_link l = false) := by
  refine ⟨?_, ?_, ?_, ?_⟩
  · intro linkAt linkAt' h
    exact link_loop_congr linkAt linkAt' 15 0 (fun i _ h2 => h i (by omega))
  · intro linkAt k l hk hrej hsome hok
    exact link_loop_first linkAt 15 0 k l (by omega) (by omega)
      (fun j _ hb => hrej j hb) hsome hok
  · intro linkAt h
    exact link_loop_all_cont linkAt 15 0 (fun j _ hb => h j (by omega))
  · intro linkAt l h
    obtain ⟨k, _, h2, h3, h4⟩ := link_loop_sound linkAt 15 0 l h
    unfold linkOk at h4
    simp only [Bool.and_eq_true, Bool.not_eq_true', decide_eq_true_eq] at h4
    exact ⟨k, by omega, h3, h4.1, h4.2⟩

/-- From the spec's words, for comparison with the code's acceptance test:
"the link's host", read off as the netloc of the parsed link. -/
def specLinkHost (url : String) : Option String :=
  match pyUrlparse url with
  | .ok p => Option.some (String.mk p.netloc)
  | .error _ => Option.none

/-- Counterexample to C5 as stated: at iteration 0 the container holds an
anchor whose host, `www.dl-protect.link`, is not itself one of the
protector domains, yet the phase rejects it (the code tests for a protector
domain occurring anywhere inside the netloc) and ends with no result. -/
theorem C5_counterexample :
    link_loop
        (fun i => if i = 0 then .ok (Option.some "http://www.dl-protect.link/abc")
          else .ok Option.none) 15 0
      = Option.none ∧
    specLinkHost "http://www.dl-protect.link/abc" = Option.some "www.dl-protect.link" ∧
    ("www.dl-protect.link" ∈ DLPROTECT_DOMAINS → False) := by
  refine ⟨by decide, by decide, by decide⟩

/-- Witness for C5 at a concrete acceptable link found at iteration 0. -/
theorem C5_await_final_link_witness :
    link_loop (fun _ => .ok (Option.some "http://files.example/abc.zip")) 15 0
      = Option.some "http://files.example/abc.zip" :=
  C5_await_final_link.2.1 (fun _ => .ok (Option.some "http://files.example/abc.zip"))
    0 "http://files.example/abc.zip" (by decide)
    (fun j hj => absurd hj (Nat.not_lt_zero j)) rfl (by decide)

/-!
### C2 — the handler boundary
-/

theorem resolve_dict_url (bo : BrowserOracle) (ro : RemoteOracle) (sys : Sys)
    (kvs : List (String × PyVal)) (urlV : PyVal)
    (hurl : dlookup kvs "url" = Option.some urlV) :
    resolve bo ro sys (Option.some (.dict kvs)) = resolveTiers bo ro sys urlV := by
  have hk : kvs.isEmpty = false := by
    cases kvs with
    | nil => simp [dlookup] at hurl
    | cons e rest => rfl
  unfold resolve
  simp [truthy, hk, pyContainsStr, hurl, pyGetItem]

theorem tier3_200 (bo : BrowserOracle) (urlV : PyVal) (sys1 : Sys)
    (calls : List ExtCall) : ∃ b, (tier3 bo urlV sys1 calls).result = .ok (200, b) := by
  unfold tier3
  rcases hq : resolve_dlprotect bo sys1 with ⟨res, sys2⟩
  rcases res with e | o
  · exact ⟨_, rfl⟩
  · rcases o with _ | r
    · exact ⟨_, rfl⟩
    · by_cases hc : (decide (r ≠ "") && !pyEqStr urlV r) = true
      · exact ⟨.dict [("resolved_url", .str r), ("cached", .bool false)],
          by simp only [hc, if_true]⟩
      · exact ⟨errorBody urlV "Could not resolve link",
          by simp only [hc, Bool.not_eq_true, Bool.false_eq_true, if_false]⟩

theorem afterLocal_200 (bo : BrowserOracle) (ro : RemoteOracle) (sys : Sys)
    (urlV : PyVal) : ∃ b, (afterLocal bo ro sys urlV).result = .ok (200, b) := by
  rcases urlV with _ | b | n | u | xs | kvs2
  case str =>
    show ∃ b, (match load_from_remote_cache ro sys u with
      | (Option.some value, sys1) =>
        (⟨.ok (200, .dict [("resolved_url", value), ("cached", .bool true),
            ("cache_source", .str "remote")]), sys1, [ExtCall.remoteGet]⟩ : HandlerOut)
      | (Option.none, sys1) =>
        tier3 bo (.str u) sys1 [ExtCall.remoteGet, ExtCall.browse]).result
      = .ok (200, b)
    rcases hr : load_from_remote_cache ro sys u with ⟨o, sys1⟩
    rcases o with _ | value
    · exact tier3_200 bo (.str u) sys1 [ExtCall.remoteGet, ExtCall.browse]
    · exact ⟨_, rfl⟩
  all_goals exact tier3_200 bo _ sys [ExtCall.browse]

set_option maxRecDepth 100000 in
/-- Counterexample to C2 as stated: with a local cache record that decodes
to the truthy JSON object with only a `foo` key (no `resolved_url`), the
handler raises a `KeyError` past its boundary instead of answering a 200
degraded result. -/
theorem C2_counterexample :
    (resolve
        ⟨.ok (), .ok (), ⟨.ok PyVal.none, .ok (), .ok (), .ok ()⟩,
         fun _ => .ok PyVal.none, .ok (), fun _ => .ok Option.none⟩
        ⟨.netError "down", .netError "down"⟩
        ⟨⟨[], [(get_cache_filepath "http://dl-protect.link/x",
            .json (.dict [("foo", .int 1)]))]⟩, 0, 0⟩
        (mkBody "http://dl-protect.link/x")).result
      = .error "KeyError: resolved_url" := rfl

/-- C2 (amended): for every request body whose `url` field names a URL
whose local record, if present and truthy, does carry a `resolved_url` key,
the handler never raises: it always answers 200, and an exception thrown
by the resolver after both cache misses is captured into
`{resolved_url: original, cached: false, error: message}`.  (A truthy local
record without `resolved_url` escapes the handler, see the
counterexample.) -/
theorem C2_no_raise (bo : BrowserOracle) (ro : RemoteOracle) (sys : Sys)
    (kvs : List (String × PyVal)) (urlV : PyVal)
    (hurl : dlookup kvs "url" = Option.some urlV)
    (hsafe : ∀ u v, urlV = .str u → load_from_cache sys u = Option.some v →
      truthy v = true → ∃ rv, pyGetItem v "resolved_url" = .ok rv) :
    (∃ b, (resolve bo ro sys (Option.some (.dict kvs))).result = .ok (200, b)) ∧
    (∀ u e, urlV = .str u → localMissB sys u = true →
      remoteHitVal ro.getResp = Option.none →
      (resolve_dlprotect bo sys).1 = .error e →
      (resolve bo ro sys (Option.some (.dict kvs))).result
        = .ok (200, errorBody (.str u) e)) := by
  constructor
  · rw [resolve_dict_url bo ro sys kvs urlV hurl]
    unfold resolveTiers
    match hu : urlV with
    | .str u =>
      cases hl : load_from_cache sys u with
      | none => simpa [hl] using afterLocal_200 bo ro sys (.str u)
      | some v =>
        cases htr : truthy v with
        | false => simpa [hl, htr] using afterLocal_200 bo ro sys (.str u)
        | true =>
          obtain ⟨rv, hrv⟩ := hsafe u v rfl hl htr
          simp [hl, htr, hrv]
    | PyVal.none => simpa using afterLocal_200 bo ro sys _
    | .bool b => simpa using afterLocal_200 bo ro sys _
    | .int n => simpa using afterLocal_200 bo ro sys _
    | .list xs => simpa using afterLocal_200 bo ro sys _
    | .dict kvs2 => simpa using afterLocal_200 bo ro sys _
  · intro u e hu hlocal hremote herr
    subst hu
    rw [resolve_dict_url bo ro sys kvs _ hurl,
      resolveTiers_miss bo ro sys u hlocal]
    have hlr := load_from_remote_cache_miss ro sys u hremote
    have hst := resolve_dlprotect_state bo sys
    rcases hq : resolve_dlprotect bo sys with ⟨res, sys2⟩
    rw [hq] at herr hst
    simp only at herr hst
    subst hst
    subst herr
    simp [afterLocal, tier3, hlr, hq]

/-- Witness for C2 (amended) at an empty cache with a raising resolver. -/
theorem C2_no_raise_witness :
    (∃ b, (resolve
        ⟨.error "net::ERR_TIMED_OUT", .ok (),
         ⟨.ok PyVal.none, .ok (), .ok (), .ok ()⟩,
         fun _ => .ok PyVal.none, .ok (), fun _ => .ok Option.none⟩
        ⟨.netError "down", .netError "down"⟩
        ⟨⟨[], []⟩, 0, 0⟩
        (Option.some (.dict [("url", .str "http://dl-protect.link/y")]))).result
      = .ok (200, b)) ∧
    (resolve
        ⟨.error "net::ERR_TIMED_OUT", .ok (),
         ⟨.ok PyVal.none, .ok (), .ok (), .ok ()⟩,
         fun _ => .ok PyVal.none, .ok (), fun _ => .ok Option.none⟩
        ⟨.netError "down", .netError "down"⟩
        ⟨⟨[], []⟩, 0, 0⟩
        (Option.some (.dict [("url", .str "http://dl-protect.link/y")]))).result
      = .ok (200, errorBody (.str "http://dl-protect.link/y") "net::ERR_TIMED_OUT") := by
  have h := C2_no_raise
    ⟨.error "net::ERR_TIMED_OUT", .ok (),
     ⟨.ok PyVal.none, .ok (), .ok (), .ok ()⟩,
     fun _ => .ok PyVal.none, .ok (), fun _ => .ok Option.none⟩
    ⟨.netError "down", .netError "down"⟩
    ⟨⟨[], []⟩, 0, 0⟩
    [("url", .str "http://dl-protect.link/y")] (.str "http://dl-protect.link/y")
    rfl
    (fun u v _ hv _ => by simp [load_from_cache, lookupFile] at hv)
  exact ⟨h.1, h.2 "http://dl-protect.link/y" "net::ERR_TIMED_OUT" rfl rfl rfl rfl⟩

/-!
### C1 — cache-write guard
-/

set_option maxRecDepth 100000 in
/-- Counterexample to C1 as stated: when the remote cache answers
`{ok: true, value: <the input URL itself>}`, the remote-hit back-fill
stores a local entry whose `resolved_url` equals its `original_url` — the
no-write-on-no-op guard covers only the fresh-resolution path. -/
theorem C1_counterexample :
    (resolve
        ⟨.ok (), .ok (), ⟨.ok PyVal.none, .ok (), .ok (), .ok ()⟩,
         fun _ => .ok PyVal.none, .ok (), fun _ => .ok Option.none⟩
        ⟨.json (.dict [("ok", .bool true), ("value", .str "http://dl-protect.link/a")]),
         .netError "down"⟩
        ⟨⟨[], []⟩, 0, 0⟩ (mkBody "http://dl-protect.link/a")).result
      = .ok (200, .dict [("resolved_url", .str "http://dl-protect.link/a"),
          ("cached", .bool true), ("cache_source", .str "remote")]) ∧
    load_from_cache
        (resolve
          ⟨.ok (), .ok (), ⟨.ok PyVal.none, .ok (), .ok (), .ok ()⟩,
           fun _ => .ok PyVal.none, .ok (), fun _ => .ok Option.none⟩
          ⟨.json (.dict [("ok", .bool true), ("value", .str "http://dl-protect.link/a")]),
           .netError "down"⟩
          ⟨⟨[], []⟩, 0, 0⟩ (mkBody "http://dl-protect.link/a")).sys
        "http://dl-protect.link/a"
      = Option.some (.dict [("original_url", .str "http://dl-protect.link/a"),
          ("resolved_url", .str "http://dl-protect.link/a"),
          ("resolved_at", .str "1970-01-01T00:00:00Z")]) :=
  ⟨rfl, rfl⟩

theorem tier3_post_guard (bo : BrowserOracle) (urlV : PyVal) (sys1 : Sys)
    (calls : List ExtCall) (u : String) (v : PyVal)
    (hcalls : ∀ (u' : String) (v' : PyVal), ExtCall.remotePost u' v' ∉ calls)
    (hmem : ExtCall.remotePost u v ∈ (tier3 bo urlV sys1 calls).calls) :
    ∃ r, v = .str r ∧ r ≠ u := by
  unfold tier3 at hmem
  rcases hq : resolve_dlprotect bo sys1 with ⟨res, sys2⟩
  rw [hq] at hmem
  rcases res with e | o
  · exact absurd hmem (hcalls u v)
  · rcases o with _ | r
    · exact absurd hmem (hcalls u v)
    · by_cases hc : (decide (r ≠ "") && !pyEqStr urlV r) = true
      · simp only [hc, if_true] at hmem
        rcases List.mem_append.mp hmem with h | h
        · exact absurd h (hcalls u v)
        · rcases urlV with _ | b | n | u' | xs | kvs2
          · simp at h
          · simp at h
          · simp at h
          · simp only [List.mem_singleton] at h
            cases h
            refine ⟨r, rfl, ?_⟩
            simp only [pyEqStr, Bool.and_eq_true, Bool.not_eq_true',
              decide_eq_true_eq, decide_eq_false_iff_not] at hc
            exact fun hru => hc.2 (by rw [hru])
          · simp at h
          · simp at h
      · simp only [hc, Bool.not_eq_true, Bool.false_eq_true, if_false] at hmem
        exact absurd hmem (hcalls u v)

theorem afterLocal_post_guard (bo : BrowserOracle) (ro : RemoteOracle) (sys : Sys)
    (urlV : PyVal) (u : String) (v : PyVal)
    (hmem : ExtCall.remotePost u v ∈ (afterLocal bo ro sys urlV).calls) :
    ∃ r, v = .str r ∧ r ≠ u := by
  rcases urlV with _ | b | n | u' | xs | kvs2
  case str =>
    simp only [afterLocal] at hmem
    rcases hr : load_from_remote_cache ro sys u' with ⟨o, sys1⟩
    rw [hr] at hmem
    rcases o with _ | value
    · exact tier3_post_guard bo (.str u') sys1 _ u v (by intro u'' v'' h; simp at h) hmem
    · simp at hmem
  all_goals
    exact tier3_post_guard bo _ sys _ u v (by intro u'' v'' h; simp at h) hmem

theorem resolveTiers_post_guard (bo : BrowserOracle) (ro : RemoteOracle) (sys : Sys)
    (urlV : PyVal) (u : String) (v : PyVal)
    (hmem : ExtCall.remotePost u v ∈ (resolveTiers bo ro sys urlV).calls) :
    ∃ r, v = .str r ∧ r ≠ u := by
  rcases urlV with _ | b | n | u' | xs | kvs2
  case str =>
    simp only [resolveTiers] at hmem
    cases hl : load_from_cache sys u' with
    | none =>
      rw [hl] at hmem
      exact afterLocal_post_guard bo ro sys (.str u') u v hmem
    | some cd =>
      rw [hl] at hmem
      by_cases ht : truthy cd = true
      · simp only [ht, if_true] at hmem
        cases hg : pyGetItem cd "resolved_url" with
        | error e => rw [hg] at hmem; simp at hmem
        | ok rv => rw [hg] at hmem; simp at hmem
      · simp only [ht, if_false] at hmem
        exact afterLocal_post_guard bo ro sys (.str u') u v hmem
  all_goals
    exact afterLocal_post_guard bo ro sys _ u v hmem

/-- C1 (amended): the fresh-resolution write-back persists an entry only
when the resolved URL differs from the input URL — every remote-cache
store the handler ever issues carries a value different from its key, and
after a double cache miss the only local file the handler can write is the
entry for the requested URL with a fresh non-empty `resolved_url ≠ url` —
but the remote-hit back-fill stores whatever truthy value the remote cache
returned, verbatim, which may equal the input URL (see the
counterexample). -/
theorem C1_cache_write_guard :
    (∀ (bo : BrowserOracle) (ro : RemoteOracle) (sys : Sys) (data : Option PyVal)
        (u : String) (v : PyVal),
        ExtCall.remotePost u v ∈ (resolve bo ro sys data).calls →
        ∃ r, v = .str r ∧ r ≠ u) ∧
    (∀ (bo : BrowserOracle) (ro : RemoteOracle) (sys : Sys) (url p : String),
        localMissB sys url = true → remoteHitVal ro.getResp = Option.none →
        lookupFile (resolve bo ro sys (mkBody url)).sys.fs.files p
          ≠ lookupFile sys.fs.files p →
        ∃ r, p = get_cache_filepath url ∧
          (resolve_dlprotect bo sys).1 = .ok (Option.some r) ∧ r ≠ "" ∧ r ≠ url ∧
          lookupFile (resolve bo ro sys (mkBody url)).sys.fs.files p
            = Option.some (.json (cacheRecord url (.str r) sys.now))) ∧
    (∀ (bo : BrowserOracle) (ro : RemoteOracle) (sys : Sys) (url : String)
        (value : PyVal),
        localMissB sys url = true → remoteHitVal ro.getResp = Option.some value →
        lookupFile (resolve bo ro sys (mkBody url)).sys.fs.files
            (get_cache_filepath url)
          = Option.some (.json (cacheRecord url value sys.now))) := by
  refine ⟨?_, ?_, ?_⟩
  · intro bo ro sys data u v hmem
    cases data with
    | none => simp [resolve] at hmem
    | some d =>
      unfold resolve at hmem
      by_cases ht : truthy d = true
      · simp only [ht, if_true] at hmem
        cases hc : pyContainsStr d "url" with
        | error e => rw [hc] at hmem; simp at hmem
        | ok bb =>
          rw [hc] at hmem
          cases bb with
          | false => simp at hmem
          | true =>
            cases hg : pyGetItem d "url" with
            | error e => rw [hg] at hmem; simp at hmem
            | ok urlV =>
              rw [hg] at hmem
              exact resolveTiers_post_guard bo ro sys urlV u v hmem
      · simp only [ht, if_false] at hmem
        simp at hmem
  · intro bo ro sys url p hlocal hremote hdiff
    have hR : resolve bo ro sys (mkBody url) = afterLocal bo ro sys (.str url) := by
      rw [resolve_mkBody, resolveTiers_miss bo ro sys url hlocal]
    rw [hR] at hdiff ⊢
    have hlr := load_from_remote_cache_miss ro sys url hremote
    have hst := resolve_dlprotect_state bo sys
    rcases hq : resolve_dlprotect bo sys with ⟨res, sys2⟩
    rw [hq] at hst
    simp only at hst
    rw [hst] at hq
    rcases res with e | o
    · simp [afterLocal, tier3, hlr, hq] at hdiff
    · rcases o with _ | r
      · simp [afterLocal, tier3, hlr, hq] at hdiff
      · by_cases hcond : r ≠ "" ∧ pyEqStr (PyVal.str url) r = false
        · have hA : afterLocal bo ro sys (.str url)
              = ⟨.ok (200, .dict [("resolved_url", .str r), ("cached", .bool false)]),
                 save_to_cache sys url (.str r),
                 [ExtCall.remoteGet, ExtCall.browse, ExtCall.remotePost url (.str r)]⟩ := by
            simp [afterLocal, tier3, hlr, hq, hcond.1, hcond.2]
          rw [hA] at hdiff ⊢
          by_cases hp : p = get_cache_filepath url
          · subst hp
            have hru : r ≠ url := by
              intro hru
              have := hcond.2
              rw [hru] at this
              simp [pyEqStr] at this
            refine ⟨r, rfl, rfl, hcond.1, hru, ?_⟩
            simp [save_to_cache, lookupFile_setFile_self]
          · exfalso
            apply hdiff
            simp only [save_to_cache]
            exact lookupFile_setFile_ne _ _ _ _ (fun h => hp h.symm)
        · simp [afterLocal, tier3, hlr, hq, hcond] at hdiff
  · intro bo ro sys url value hlocal hremote
    have hR : resolve bo ro sys (mkBody url) = afterLocal bo ro sys (.str url) := by
      rw [resolve_mkBody, resolveTiers_miss bo ro sys url hlocal]
    rw [hR]
    have hlr := load_from_remote_cache_hit ro sys url value hremote
    simp [afterLocal, hlr, save_to_cache, lookupFile_setFile_self]

/-- Witness for C1 (amended) at a concrete fresh resolution: the issued
remote store carries a value different from the input URL. -/
theorem C1_cache_write_guard_witness :
    ExtCall.remotePost "http://dl-protect.link/w" (.str "http://files.example/w.zip")
        ∈ (resolve
            ⟨.ok (), .ok (), ⟨.ok PyVal.none, .ok (), .ok (), .ok ()⟩,
             fun _ => .ok (.dict [("exists", .bool true)]), .ok (),
             fun _ => .ok (Option.some "http://files.example/w.zip")⟩
            ⟨.netError "down", .netError "down"⟩
            ⟨⟨[], []⟩, 0, 0⟩ (mkBody "http://dl-protect.link/w")).calls ∧
    ∃ r, (PyVal.str "http://files.example/w.zip") = .str r ∧
      r ≠ "http://dl-protect.link/w" := by
  have hmem : ExtCall.remotePost "http://dl-protect.link/w"
      (.str "http://files.example/w.zip")
      ∈ (resolve
          ⟨.ok (), .ok (), ⟨.ok PyVal.none, .ok (), .ok (), .ok ()⟩,
           fun _ => .ok (.dict [("exists", .bool true)]), .ok (),
           fun _ => .ok (Option.some "http://files.example/w.zip")⟩
          ⟨.netError "down", .netError "down"⟩
          ⟨⟨[], []⟩, 0, 0⟩ (mkBody "http://dl-protect.link/w")).calls := by
    have hcl : (resolve
          ⟨.ok (), .ok (), ⟨.ok PyVal.none, .ok (), .ok (), .ok ()⟩,
           fun _ => .ok (.dict [("exists", .bool true)]), .ok (),
           fun _ => .ok (Option.some "http://files.example/w.zip")⟩
          ⟨.netError "down", .netError "down"⟩
          ⟨⟨[], []⟩, 0, 0⟩ (mkBody "http://dl-protect.link/w")).calls
        = [ExtCall.remoteGet, ExtCall.browse,
           ExtCall.remotePost "http://dl-protect.link/w"
             (.str "http://files.example/w.zip")] := rfl
    rw [hcl]
    simp
  exact ⟨hmem,
    C1_cache_write_guard.1
      ⟨.ok (), .ok (), ⟨.ok PyVal.none, .ok (), .ok (), .ok ()⟩,
       fun _ => .ok (.dict [("exists", .bool true)]), .ok (),
       fun _ => .ok (Option.some "http://files.example/w.zip")⟩
      ⟨.netError "down", .netError "down"⟩
      ⟨⟨[], []⟩, 0, 0⟩ (mkBody "http://dl-protect.link/w")
      "http://dl-protect.link/w" (.str "http://files.example/w.zip") hmem⟩

/-!
### C6 — cache key derivation
-/

theorem takeWhile_append_all {α} {p : α → Bool} {a : List α}
    (h : a.dropWhile p = []) (x : List α) :
    (a ++ x).takeWhile p = a ++ x.takeWhile p := by
  induction a with
  | nil => simp
  | cons c t ih =>
    by_cases hc : p c = true
    · rw [List.dropWhile_cons, if_pos hc] at h
      simp [List.takeWhile_cons, hc, ih h]
    · rw [List.dropWhile_cons, if_neg hc] at h
      cases h

theorem dropWhile_append_all {α} {p : α → Bool} {a : List α}
    (h : a.dropWhile p = []) (x : List α) :
    (a ++ x).dropWhile p = x.dropWhile p := by
  induction a with
  | nil => simp
  | cons c t ih =>
    by_cases hc : p c = true
    · rw [List.dropWhile_cons, if_pos hc] at h
      simp [List.dropWhile_cons, hc, ih h]
    · rw [List.dropWhile_cons, if_neg hc] at h
      cases h

theorem takeWhile_append_stop {α} {p : α → Bool} {a : List α}
    (h : a.dropWhile p ≠ []) (x : List α) :
    (a ++ x).takeWhile p = a.takeWhile p := by
  induction a with
  | nil => simp [List.dropWhile] at h
  | cons c t ih =>
    by_cases hc : p c = true
    · rw [List.dropWhile_cons, if_pos hc] at h
      simp [List.takeWhile_cons, hc, ih h]
    · simp [List.takeWhile_cons, hc]

theorem dropWhile_append_stop {α} {p : α → Bool} {a : List α}
    (h : a.dropWhile p ≠ []) (x : List α) :
    (a ++ x).dropWhile p = a.dropWhile p ++ x := by
  induction a with
  | nil => simp [List.dropWhile] at h
  | cons c t ih =>
    by_cases hc : p c = true
    · rw [List.dropWhile_cons, if_pos hc] at h
      simp [List.dropWhile_cons, hc, ih h]
    · simp [List.dropWhile_cons, hc]

theorem takeWhile_eq_self_of_dropWhile_nil {α} {p : α → Bool} {a : List α}
    (h : a.dropWhile p = []) : a.takeWhile p = a := by
  have := List.takeWhile_append_dropWhile p a
  rw [h, List.append_nil] at this
  exact this

theorem isEmpty_false_of_ne {α} {l : List α} (h : l ≠ []) : l.isEmpty = false := by
  cases l with
  | nil => exact absurd rfl h
  | cons c t => rfl

/-- Branch facts of `splitScheme`. -/
theorem splitScheme_no_colon {l : List Char} (h : l.dropWhile (· != ':') = []) :
    splitScheme l = ([], l) := by
  simp [splitScheme, h]

theorem splitScheme_pre_nil {l : List Char}
    (h : l.takeWhile (· != ':') = []) (h2 : l.dropWhile (· != ':') ≠ []) :
    splitScheme l = ([], l) := by
  simp only [splitScheme, isEmpty_false_of_ne h2, Bool.false_eq_true, if_false, h]

theorem splitScheme_bad {l : List Char} {c : Char} {cs : List Char}
    (h : l.takeWhile (· != ':') = c :: cs) (h2 : l.dropWhile (· != ':') ≠ [])
    (h3 : (c.isAlpha && cs.all schemeChar) = false) :
    splitScheme l = ([], l) := by
  simp only [splitScheme, isEmpty_false_of_ne h2, Bool.false_eq_true, if_false, h]
  show (if (c.isAlpha && cs.all schemeChar) = true then
      ((c :: cs).map Char.toLower, (l.dropWhile (· != ':')).tail)
    else ([], l)) = ([], l)
  rw [h3, if_neg Bool.false_ne_true]

theorem splitScheme_good {l : List Char} {c : Char} {cs : List Char}
    (h : l.takeWhile (· != ':') = c :: cs) (h2 : l.dropWhile (· != ':') ≠ [])
    (h3 : (c.isAlpha && cs.all schemeChar) = true) :
    splitScheme l = ((c :: cs).map Char.toLower, (l.dropWhile (· != ':')).tail) := by
  simp only [splitScheme, isEmpty_false_of_ne h2, Bool.false_eq_true, if_false, h]
  show (if (c.isAlpha && cs.all schemeChar) = true then
      ((c :: cs).map Char.toLower, (l.dropWhile (· != ':')).tail)
    else ([], l)) = ((c :: cs).map Char.toLower, (l.dropWhile (· != ':')).tail)
  rw [h3, if_pos rfl]

/-- The append step of `splitScheme`: a separator that is neither a colon
nor a scheme character cuts scheme detection off from everything after
it. -/
theorem splitScheme_append (b r : List Char) (d : Char)
    (hd1 : (d != ':') = true) (hd2 : schemeChar d = false) :
    splitScheme (b ++ d :: r)
      = ((splitScheme b).1, (splitScheme b).2 ++ d :: r) := by
  have hdalpha : d.isAlpha = false := by
    unfold schemeChar at hd2
    simp only [Bool.or_eq_false_iff] at hd2
    exact hd2.1.1.1.1
  by_cases h : b.dropWhile (· != ':') = []
  · rw [splitScheme_no_colon h]
    by_cases h2 : r.dropWhile (· != ':') = []
    · have hall : (b ++ d :: r).dropWhile (· != ':') = [] := by
        rw [dropWhile_append_all h, List.dropWhile_cons, if_pos hd1, h2]
      rw [splitScheme_no_colon hall]
    · have hpost : (b ++ d :: r).dropWhile (· != ':') ≠ [] := by
        rw [dropWhile_append_all h, List.dropWhile_cons, if_pos hd1]
        exact h2
      have hpre : (b ++ d :: r).takeWhile (· != ':')
          = b ++ d :: r.takeWhile (· != ':') := by
        rw [takeWhile_append_all h, List.takeWhile_cons, if_pos hd1]
      cases hbs : b with
      | nil =>
        subst hbs
        rw [List.nil_append] at hpre hpost ⊢
        rw [splitScheme_bad hpre hpost (by rw [hdalpha, Bool.false_and])]
      | cons c cs =>
        subst hbs
        rw [List.cons_append] at hpre hpost ⊢
        have hpre2 : (c :: (cs ++ d :: r)).takeWhile (· != ':')
            = c :: (cs ++ d :: r.takeWhile (· != ':')) := by
          rw [hpre, List.cons_append]
        have hall : ((cs ++ d :: r.takeWhile (· != ':')).all schemeChar) = false := by
          simp [List.all_append, hd2]
        rw [splitScheme_bad hpre2 hpost (by rw [hall, Bool.and_false])]
  · have hpost := dropWhile_append_stop h (d :: r)
    have hpost2 : (b ++ d :: r).dropWhile (· != ':') ≠ [] := by
      rw [hpost]
      intro hx
      exact h (List.append_eq_nil.mp hx).1
    have hpre := takeWhile_append_stop h (d :: r)
    cases htw : b.takeWhile (· != ':') with
    | nil =>
      rw [splitScheme_pre_nil htw h, splitScheme_pre_nil (hpre.trans htw) hpost2]
    | cons c cs =>
      by_cases hco : (c.isAlpha && cs.all schemeChar) = true
      · rw [splitScheme_good htw h hco, splitScheme_good (hpre.trans htw) hpost2 hco]
        rw [hpost]
        rcases hdw : b.dropWhile (· != ':') with _ | ⟨y, t⟩
        · exact absurd hdw h
        · rfl
      · have hco' : (c.isAlpha && cs.all schemeChar) = false := by
          cases hx : (c.isAlpha && cs.all schemeChar)
          · rfl
          · exact absurd hx hco
        rw [splitScheme_bad htw h hco', splitScheme_bad (hpre.trans htw) hpost2 hco']

theorem leadsWith_append {p c : List Char} (h : leadsWith p c = true)
    (x : List Char) : leadsWith p (c ++ x) = true := by
  induction p generalizing c with
  | nil => rfl
  | cons a ps ih =>
    cases c with
    | nil => simp [leadsWith] at h
    | cons b t =>
      rw [List.cons_append]
      unfold leadsWith at h ⊢
      simp only [Bool.and_eq_true] at h
      rw [h.1, ih h.2]
      rfl

/-- Branch facts of `splitNetloc`. -/
theorem splitNetloc_not_slash {l : List Char}
    (h : leadsWith ['/', '/'] l = false) : splitNetloc l = .ok ([], l) := by
  simp [splitNetloc, h]

theorem splitNetloc_slash {l : List Char}
    (h : leadsWith ['/', '/'] l = true) :
    splitNetloc l
      = if (((l.drop 2).takeWhile netlocChar).contains '['
              && !((l.drop 2).takeWhile netlocChar).contains ']')
          || (((l.drop 2).takeWhile netlocChar).contains ']'
              && !((l.drop 2).takeWhile netlocChar).contains '[') then
          .error "ValueError: Invalid IPv6 URL"
        else .ok ((l.drop 2).takeWhile netlocChar, (l.drop 2).dropWhile netlocChar) := by
  simp [splitNetloc, h]

/-- The append step of `splitNetloc`: a `?` or `#` separator stops the
netloc scan, and the bracket validation depends only on what came before
it. -/
theorem splitNetloc_append (c r : List Char) (d : Char)
    (hd : netlocChar d = false) (hds : (d == '/') = false) :
    splitNetloc (c ++ d :: r)
      = match splitNetloc c with
        | .error e => .error e
        | .ok (nl, rest) => .ok (nl, rest ++ d :: r) := by
  have hsd : (('/' : Char) == d) = false := by
    have hne : d ≠ '/' := by
      intro he
      rw [he] at hds
      simp at hds
    cases hx : (('/' : Char) == d)
    · rfl
    · exact absurd (eq_of_beq hx).symm hne
  have hdfalse : ¬ netlocChar d = true := by rw [hd]; exact Bool.false_ne_true
  by_cases hl : leadsWith ['/', '/'] c = true
  · rcases c with _ | ⟨a, _ | ⟨b2, cs⟩⟩
    · simp [leadsWith] at hl
    · simp [leadsWith] at hl
    · unfold leadsWith at hl
      simp only [Bool.and_eq_true] at hl
      have ha : (('/' : Char) == a) = true := hl.1
      have hb : (('/' : Char) == b2) = true := by
        rcases hl with ⟨-, h2⟩
        unfold leadsWith at h2
        simp only [Bool.and_eq_true] at h2
        first
          | exact h2
          | exact h2.1
      have ha' := (eq_of_beq ha).symm
      have hb' := (eq_of_beq hb).symm
      subst ha'
      subst hb'
      have hl3 : leadsWith ['/', '/'] ('/' :: '/' :: (cs ++ d :: r)) = true := by
        simp [leadsWith]
      have hlc : leadsWith ['/', '/'] ('/' :: '/' :: cs) = true := by
        simp [leadsWith]
      have happ : ('/' :: '/' :: cs) ++ d :: r = '/' :: '/' :: (cs ++ d :: r) := rfl
      rw [happ, splitNetloc_slash hl3, splitNetloc_slash hlc]
      have hdrop1 : (('/' : Char) :: '/' :: (cs ++ d :: r)).drop 2 = cs ++ d :: r := rfl
      have hdrop2 : (('/' : Char) :: '/' :: cs).drop 2 = cs := rfl
      rw [hdrop1, hdrop2]
      by_cases hno : cs.dropWhile netlocChar = []
      · have htw : (cs ++ d :: r).takeWhile netlocChar = cs := by
          rw [takeWhile_append_all hno, List.takeWhile_cons, if_neg hdfalse,
            List.append_nil]
        have htwc : cs.takeWhile netlocChar = cs :=
          takeWhile_eq_self_of_dropWhile_nil hno
        have hdw : (cs ++ d :: r).dropWhile netlocChar = d :: r := by
          rw [dropWhile_append_all hno, List.dropWhile_cons, if_neg hdfalse]
        rw [htw, htwc, hno, hdw]
        by_cases hbr : ((cs.contains '[' && !cs.contains ']')
            || (cs.contains ']' && !cs.contains '[')) = true
        · rw [if_pos hbr, if_pos hbr]
        · rw [if_neg hbr, if_neg hbr]
          rfl
      · have htw := takeWhile_append_stop hno (d :: r)
        have hdw := dropWhile_append_stop hno (d :: r)
        rw [htw, hdw]
        by_cases hbr : (((cs.takeWhile netlocChar).contains '['
              && !(cs.takeWhile netlocChar).contains ']')
            || ((cs.takeWhile netlocChar).contains ']'
              && !(cs.takeWhile netlocChar).contains '[')) = true
        · rw [if_pos hbr, if_pos hbr]
        · rw [if_neg hbr, if_neg hbr]
  · have hl' : leadsWith ['/', '/'] c = false := by
      cases hx : leadsWith ['/', '/'] c
      · rfl
      · exact absurd hx hl
    have hl2 : leadsWith ['/', '/'] (c ++ d :: r) = false := by
      rcases c with _ | ⟨a, _ | ⟨b2, t⟩⟩
      · simp [leadsWith, hsd]
      · simp [leadsWith, hsd]
      · unfold leadsWith at hl' ⊢
        simpa using hl'
    rw [splitNetloc_not_slash hl', splitNetloc_not_slash hl2]

/-- The fragment-then-query truncation (what determines the path) ignores
everything after the first `?` or `#`. -/
theorem pathQ_append (e r : List Char) (d : Char) (hd : d = '?' ∨ d = '#') :
    ((e ++ d :: r).takeWhile (· != '#')).takeWhile (· != '?')
      = (e.takeWhile (· != '#')).takeWhile (· != '?') := by
  induction e with
  | nil =>
    rcases hd with h | h <;> subst h <;>
      simp [List.takeWhile_cons]
  | cons c e ih =>
    by_cases hc1 : (c != '#') = true
    · by_cases hc2 : (c != '?') = true
      · simp [List.takeWhile_cons, hc1, hc2, ih]
      · have hc2' : (c != '?') = false := by
          cases hx : (c != '?')
          · rfl
          · exact absurd hx hc2
        simp [List.takeWhile_cons, hc1, hc2']
    · have hc1' : (c != '#') = false := by
        cases hx : (c != '#')
        · rfl
        · exact absurd hx hc1
      simp [List.takeWhile_cons, hc1']

/-- The scheme, netloc and path components that the clean URL hashed by
`get_url_hash` is built from (the projection of `pyUrlparse` the cache key
depends on). -/
def parseCore (l : List Char) : Except String (List Char × List Char × List Char) :=
  match splitNetloc (splitScheme (l.filter (fun c => !unsafeChar c))).2 with
  | .error e => .error e
  | .ok (netloc, r2) =>
    .ok ((splitScheme (l.filter (fun c => !unsafeChar c))).1, netloc,
      (splitParams ((r2.takeWhile (· != '#')).takeWhile (· != '?'))).1)

theorem parseCore_spec (url : String) :
    parseCore url.data
      = (pyUrlparse url).map (fun p => (p.scheme, p.netloc, p.path)) := by
  unfold parseCore pyUrlparse splitFragment splitQuery
  cases hsn : splitNetloc (splitScheme (url.data.filter (fun c => !unsafeChar c))).2 with
  | error e => simp [hsn, Except.map]
  | ok p =>
    rcases p with ⟨nl, r2⟩
    simp [hsn, Except.map]

/-- Master lemma for the cache key: a `?` or `#` separator makes the
scheme, netloc and path of the parse independent of everything after it. -/
theorem parseCore_append (b q : List Char) (d : Char) (hd : d = '?' ∨ d = '#') :
    parseCore (b ++ d :: q) = parseCore b := by
  have hdu : unsafeChar d = false := by rcases hd with h | h <;> subst h <;> rfl
  have hd1 : (d != ':') = true := by rcases hd with h | h <;> subst h <;> rfl
  have hd2 : schemeChar d = false := by rcases hd with h | h <;> subst h <;> rfl
  have hd3 : netlocChar d = false := by rcases hd with h | h <;> subst h <;> rfl
  have hd4 : (d == '/') = false := by rcases hd with h | h <;> subst h <;> rfl
  have hfil : (b ++ d :: q).filter (fun c => !unsafeChar c)
      = b.filter (fun c => !unsafeChar c) ++ d :: q.filter (fun c => !unsafeChar c) := by
    rw [List.filter_append, List.filter_cons]
    simp [hdu]
  have hfst : (splitScheme ((b ++ d :: q).filter (fun c => !unsafeChar c))).1
      = (splitScheme (b.filter (fun c => !unsafeChar c))).1 := by
    rw [hfil, splitScheme_append _ _ _ hd1 hd2]
  have hsnd : (splitScheme ((b ++ d :: q).filter (fun c => !unsafeChar c))).2
      = (splitScheme (b.filter (fun c => !unsafeChar c))).2
          ++ d :: q.filter (fun c => !unsafeChar c) := by
    rw [hfil, splitScheme_append _ _ _ hd1 hd2]
  unfold parseCore
  rw [hfst, hsnd, splitNetloc_append _ _ _ hd3 hd4]
  cases hsn : splitNetloc (splitScheme (b.filter (fun c => !unsafeChar c))).2 with
  | error e => rfl
  | ok p =>
    rcases p with ⟨nl, r2⟩
    have hpq := pathQ_append r2 (q.filter (fun c => !unsafeChar c)) d hd
    simp only [hpq]

/-- Whether an `Except` is a success. -/
def exOk {ε α : Type} : Except ε α → Bool
  | .ok _ => true
  | .error _ => false

theorem cleanUrl_core (url : String) :
    cleanUrl url
      = match parseCore url.data with
        | .ok (s, nl, p) => String.mk (s ++ [':', '/', '/'] ++ nl ++ p)
        | .error _ => url := by
  rw [parseCore_spec]
  cases h : pyUrlparse url with
  | error e => simp [cleanUrl, h, Except.map]
  | ok p => simp [cleanUrl, h, Except.map]

theorem byteHex_length (b : Nat) : (byteHex b).length = 2 := rfl

theorem bytesHex_length (l : List Nat) : (bytesHex l).length = 2 * l.length := by
  induction l with
  | nil => rfl
  | cons b bs ih =>
    show (byteHex b ++ bytesHex bs).length = 2 * (bs.length + 1)
    rw [String.length_append, byteHex_length, ih]
    ring

theorem md5bytes_length (msg : List Nat) : (md5bytes msg).length = 16 := by
  simp [md5bytes, wordLE]

theorem md5hex_length (s : String) : (md5hex s).length = 32 := by
  unfold md5hex
  rw [bytesHex_length, md5bytes_length]

theorem data_append_sep (base q : String) (d : Char) (hd : String.mk [d] = "?" ∨ String.mk [d] = "#") :
    (base ++ String.mk [d] ++ q).data = base.data ++ d :: q.data := by
  show ((base ++ String.mk [d]) ++ q).data = _
  rw [String.data_append, String.data_append]
  simp

/-- C6 (amended): the cache key is a deterministic pure function of the
normalized URL: whenever the URL parses, two URLs differing only in their
query string (or only in their fragment) receive the identical hash, the
hash always has 32 hex characters, and on a parse failure the raw string is
hashed unmodified.  (For two unparseable URLs the raw fallback makes the
keys differ; see the counterexample.) -/
theorem C6_cache_key_derivation :
    (∀ base q1 q2 : String, exOk (pyUrlparse (base ++ "?" ++ q1)) = true →
        get_url_hash (base ++ "?" ++ q1) = get_url_hash (base ++ "?" ++ q2)) ∧
    (∀ base f1 f2 : String, exOk (pyUrlparse (base ++ "#" ++ f1)) = true →
        get_url_hash (base ++ "#" ++ f1) = get_url_hash (base ++ "#" ++ f2)) ∧
    (∀ url : String, (get_url_hash url).length = 32) ∧
    (∀ (url e : String), pyUrlparse url = .error e → get_url_hash url = md5hex url) := by
  have hh : ∀ u : String, get_url_hash u
      = (match parseCore u.data with
         | .ok (s, nl, p) => md5hex (String.mk (s ++ [':', '/', '/'] ++ nl ++ p))
         | .error _ => md5hex u) := by
    intro u
    unfold get_url_hash
    rw [cleanUrl_core]
    cases parseCore u.data with
    | error e => rfl
    | ok p => rcases p with ⟨s, nl, pth⟩; rfl
  have main : ∀ (sep : String) (d : Char), sep = String.mk [d] →
      (d = '?' ∨ d = '#') →
      ∀ base q1 q2 : String, exOk (pyUrlparse (base ++ sep ++ q1)) = true →
      get_url_hash (base ++ sep ++ q1) = get_url_hash (base ++ sep ++ q2) := by
    intro sep d hsep hd base q1 q2 hok
    subst hsep
    have hds : String.mk [d] = "?" ∨ String.mk [d] = "#" := by
      rcases hd with h | h <;> subst h
      · exact Or.inl rfl
      · exact Or.inr rfl
    have hc : ∀ q : String,
        parseCore ((base ++ String.mk [d] ++ q).data) = parseCore base.data := by
      intro q
      rw [data_append_sep base q d hds]
      exact parseCore_append _ _ _ hd
    have hok2 : exOk (parseCore ((base ++ String.mk [d] ++ q1).data)) = true := by
      rw [parseCore_spec]
      cases hp : pyUrlparse (base ++ String.mk [d] ++ q1) with
      | error e => rw [hp] at hok; exact absurd hok (by simp [exOk])
      | ok p => simp [Except.map, exOk]
    rw [hh, hh, hc q1, hc q2]
    rcases hpc : parseCore base.data with e | ⟨s, nl, pth⟩
    · rw [hc q1, hpc] at hok2
      exact absurd hok2 (by simp [exOk])
    · rfl
  refine ⟨?_, ?_, fun url => md5hex_length _, ?_⟩
  · exact main "?" '?' rfl (Or.inl rfl)
  · exact main "#" '#' rfl (Or.inr rfl)
  · intro url e h
    simp [get_url_hash, cleanUrl, h]

set_option maxRecDepth 1000000 in
/-- Counterexample to C6 as stated: these two inputs differ only in their
query string, but neither parses (mismatched bracket in the netloc), so
each is hashed raw and the derived cache keys differ. -/
theorem C6_counterexample :
    ("http://[/" ++ "?" ++ "a" : String) = "http://[/?a" ∧
    ("http://[/" ++ "?" ++ "b" : String) = "http://[/?b" ∧
    get_url_hash "http://[/?a" ≠ get_url_hash "http://[/?b" := by
  refine ⟨rfl, rfl, by decide⟩

/-- Witness for C6 (amended): a parseable pair differing only in the query
gets one key, and an unparseable URL falls back to the raw hash. -/
theorem C6_cache_key_derivation_witness :
    get_url_hash ("http://files.example/p" ++ "?" ++ "a=1")
      = get_url_hash ("http://files.example/p" ++ "?" ++ "b=2") ∧
    get_url_hash "http://[" = md5hex "http://[" :=
  ⟨C6_cache_key_derivation.1 "http://files.example/p" "a=1" "b=2" rfl,
   C6_cache_key_derivation.2.2.2 "http://[" "ValueError: Invalid IPv6 URL" rfl⟩

end Ddlarr
